import Mathlib

/-!
# A shallow embedding of the bidi.js embedding-levels resolver

This file embeds the core of `src/embeddingLevels.js` (the UAX#9 resolver of
the bidi.js library) into Lean, and proves / refutes a collection of claims
about it.  The embedding mirrors the JavaScript source statement by
statement:

* JS mutable `Uint32Array`/`Uint8Array` cells become Lean functions
  `Nat → Nat` updated pointwise (`updf`);
* the JS `Map` used for the per-paragraph character-type histogram becomes a
  function `Nat → Option Int`, where `none` models the JS `undefined`/`NaN`
  poison values (both are falsy and absorb arithmetic in the ways the source
  relies on);
* the directional status stack becomes a `List Frame` whose head is the top
  of the stack; reading the top of a possibly-empty stack is modelled with
  `List.head?` inside the `Option` monad, so a JS `TypeError` crash shows up
  as `none`;
* JS loops become structural recursions; the one loop of the source that can
  genuinely run forever (the BD13 run-chaining loop) is given fuel
  `levelRuns.length + 1`, which is exhausted exactly when the JS loop would
  revisit a run and therefore spin forever, and the not-found case of its
  inner search (in which the JS loop condition can never change) is mapped
  to `none` directly.  Hence `none` in the final result models
  "the JS function crashes or hangs".

The Unicode data tables (`charTypes.js` bit constants and the bracket maps)
are not part of the sources under scrutiny; the character-class constants are
modelled from the spec (23 distinct single-bit flags plus the named unions)
and the table lookups are parameters (`BidiEnv`).
-/

set_option autoImplicit false

namespace Bidi

/-! ## Character classes

Modelled from the spec: charTypes.js is not among the given sources.  The
spec fixes 23 UAX#9 classes, "encoded so each is a distinct single-bit flag",
and the named unions STRONG, ISOLATE_INITIATORS, NEUTRAL_ISOLATES, BN_LIKE
and TRAILING.  The concrete bit positions are irrelevant to the algorithm
(only single-bit-ness and the unions matter); we fix one assignment. -/

def TYPE_L : Nat := 1
def TYPE_R : Nat := 2
def TYPE_EN : Nat := 4
def TYPE_ES : Nat := 8
def TYPE_ET : Nat := 16
def TYPE_AN : Nat := 32
def TYPE_CS : Nat := 64
def TYPE_B : Nat := 128
def TYPE_S : Nat := 256
def TYPE_WS : Nat := 512
def TYPE_ON : Nat := 1024
def TYPE_BN : Nat := 2048
def TYPE_NSM : Nat := 4096
def TYPE_AL : Nat := 8192
def TYPE_LRO : Nat := 16384
def TYPE_RLO : Nat := 32768
def TYPE_LRE : Nat := 65536
def TYPE_RLE : Nat := 131072
def TYPE_PDF : Nat := 262144
def TYPE_LRI : Nat := 524288
def TYPE_RLI : Nat := 1048576
def TYPE_FSI : Nat := 2097152
def TYPE_PDI : Nat := 4194304

/-- The list of the 23 class flags; a well-formed character table maps every
code point to a member of this list. -/
def bidiClassList : List Nat :=
  [TYPE_L, TYPE_R, TYPE_EN, TYPE_ES, TYPE_ET, TYPE_AN, TYPE_CS, TYPE_B,
   TYPE_S, TYPE_WS, TYPE_ON, TYPE_BN, TYPE_NSM, TYPE_AL, TYPE_LRO, TYPE_RLO,
   TYPE_LRE, TYPE_RLE, TYPE_PDF, TYPE_LRI, TYPE_RLI, TYPE_FSI, TYPE_PDI]

def ISOLATE_INIT_TYPES : Nat := TYPE_LRI ||| TYPE_RLI ||| TYPE_FSI

def STRONG_TYPES : Nat := TYPE_L ||| TYPE_R ||| TYPE_AL

def NEUTRAL_ISOLATE_TYPES : Nat :=
  TYPE_B ||| TYPE_S ||| TYPE_WS ||| TYPE_ON ||| TYPE_FSI ||| TYPE_LRI |||
  TYPE_RLI ||| TYPE_PDI

def BN_LIKE_TYPES : Nat :=
  TYPE_BN ||| TYPE_RLE ||| TYPE_LRE ||| TYPE_RLO ||| TYPE_LRO ||| TYPE_PDF

def TRAILING_TYPES : Nat :=
  TYPE_WS ||| ISOLATE_INIT_TYPES ||| TYPE_PDI ||| TYPE_S ||| TYPE_B

/-- src/embeddingLevels.js line 128. -/
def FORMATTING_TYPES : Nat :=
  TYPE_RLE ||| TYPE_LRE ||| TYPE_RLO ||| TYPE_LRO ||| ISOLATE_INIT_TYPES |||
  TYPE_PDI ||| TYPE_PDF ||| TYPE_B

/-! ## External lookup tables

The bidi character-type table and the bracket tables are external data
(spec section 1 places them out of scope, consumed "through simple lookup
interfaces").  The embedding is parameterised over them.  A lookup takes the
code point (the JS source passes the character; a character is exactly one
code point there). -/

structure BidiEnv where
  getBidiCharType : Nat → Nat
  openingToClosingBracket : Nat → Option Nat
  closingToOpeningBracket : Nat → Option Nat
  getCanonicalBracket : Nat → Option Nat

/-- A character table is well-formed when every code point is assigned one of
the 23 single-bit classes. -/
def BidiEnv.WF (env : BidiEnv) : Prop :=
  ∀ cp : Nat, env.getBidiCharType cp ∈ bidiClassList

/-- The three recognised base directions; any other caller input is treated
as auto by the source (spec section 6). -/
inductive BaseDirection where
  | ltr
  | rtl
  | auto
deriving DecidableEq, Repr

/-! ## Pointwise function update (the model of an array write) -/

/-- A per-index Nat store (the model of a JS typed array): a base content
function overlaid with a list of point writes, newest first.  (A structure of
data rather than a bare closure, so that reduction of a long write history
stays shallow for both the compiler and the kernel.) -/
structure NMap where
  base : Nat → Nat
  entries : List (Nat × Nat) := []

/-- Reading a cell: the newest write wins, the base content otherwise. -/
def NMap.get (m : NMap) (j : Nat) : Nat :=
  match m.entries.find? (fun e => e.1 = j) with
  | some e => e.2
  | none => m.base j

instance : CoeFun NMap (fun _ => Nat → Nat) := ⟨NMap.get⟩

/-- Writing a cell. -/
def updf (f : NMap) (i v : Nat) : NMap :=
  { f with entries := (i, v) :: f.entries }

/-! ## Code points, code units and the index maps

`Array.from(string)` splits a JS string into code points; a code point below
0x10000 occupies one UTF-16 code unit, any other occupies two (a surrogate
pair).  The input of the embedding is the list of code points. -/

/-- The UTF-16 width of a code point (JS: `char.length`). -/
def cpLength (cp : Nat) : Nat := if cp < 0x10000 then 1 else 2

/-- The string length in code units. -/
def strLength (cps : List Nat) : Nat := (cps.map cpLength).sum

/-- codePointIndexToCodeUnitIndex (src lines 64, 74): the code-unit index at
which code point `i` starts. -/
def cpToCu (cps : List Nat) (i : Nat) : Nat :=
  ((cps.take i).map cpLength).sum

/-- codeUnitIndexToCodePointIndex (src lines 65, 76): the code point index
owning code unit `cu`. -/
def cuToCp : List Nat → Nat → Nat
  | [], _ => 0
  | c :: rest, cu => if cu < cpLength c then 0 else cuToCp rest (cu - cpLength c) + 1

/-- The initial character-class array (src lines 68-79). -/
def charTypes0 (env : BidiEnv) (cps : List Nat) : NMap :=
  { base := fun i => env.getBidiCharType (cps.getD i 0) }

/-! ## The character-type histogram and changeCharType

`charTypeCounts` is a JS `Map` from a class value (or the
NEUTRAL_ISOLATE_TYPES union value) to a count.  `Map.get` on an absent key
gives `undefined`, and `undefined - 1` gives `NaN`; both are falsy, absorb
subtraction, and are flushed to `0` by `|| 0`.  We model a stored value as
`Option Int` with `none` meaning undefined-or-NaN, which matches every
operation the source performs on it. -/

structure CountMap where
  entries : List (Nat × Option Int) := []

/-- Reading a histogram entry: the newest write wins; an absent key is the
JS `undefined` (`none`). -/
def CountMap.get (c : CountMap) (k : Nat) : Option Int :=
  match c.entries.find? (fun e => e.1 = k) with
  | some e => e.2
  | none => none

instance : CoeFun CountMap (fun _ => Nat → Option Int) := ⟨CountMap.get⟩

def CountMap.empty : CountMap := {}

def setCount (c : CountMap) (k : Nat) (v : Option Int) : CountMap :=
  ⟨(k, v) :: c.entries⟩

/-- The truthiness test the source uses on histogram entries: undefined, NaN
and 0 are falsy, everything else truthy. -/
def truthy (v : Option Int) : Bool :=
  match v with
  | none => false
  | some z => z ≠ 0

/-- JS `(map.get(k) || 0)`. -/
def countOr0 (v : Option Int) : Int :=
  match v with
  | none => 0
  | some z => z

/-- JS `map.get(k) - 1` (NaN-propagating). -/
def countDec (v : Option Int) : Option Int :=
  v.map (· - 1)

/-- The mutable class array together with its histogram. -/
structure TypeState where
  charTypes : NMap
  counts : CountMap

/-- changeCharType (src lines 82-93). -/
def changeCharType (s : TypeState) (cpIdx t : Nat) : TypeState :=
  let oldType := s.charTypes cpIdx
  let c1 := setCount s.counts oldType (countDec (s.counts oldType))
  let c2 :=
    if oldType &&& NEUTRAL_ISOLATE_TYPES ≠ 0 then
      setCount c1 NEUTRAL_ISOLATE_TYPES (countDec (c1 NEUTRAL_ISOLATE_TYPES))
    else c1
  let c3 := setCount c2 t (some (countOr0 (c2 t) + 1))
  let c4 :=
    if t &&& NEUTRAL_ISOLATE_TYPES ≠ 0 then
      setCount c3 NEUTRAL_ISOLATE_TYPES (some (countOr0 (c3 NEUTRAL_ISOLATE_TYPES) + 1))
    else c3
  { charTypes := updf s.charTypes cpIdx t, counts := c4 }

/-- Histogram update for a freshly visited character (src lines 160-163). -/
def countInit (c : CountMap) (charType : Nat) : CountMap :=
  let c1 := setCount c charType (some (countOr0 (c charType) + 1))
  if charType &&& NEUTRAL_ISOLATE_TYPES ≠ 0 then
    setCount c1 NEUTRAL_ISOLATE_TYPES (some (countOr0 (c1 NEUTRAL_ISOLATE_TYPES) + 1))
  else c1

/-! ## P2-P3 helpers (src lines 778-820) -/

/-- indexOfMatchingPDI (src lines 801-820), fuelled scan from `i` with current
isolation `level`; fuel `n + 1` always suffices because `i` grows by one per
step and the scan stops at `n`. -/
def matchingPDIAux (ct : NMap) (n : Nat) : Nat → Nat → Nat → Option Nat
  | _, _, 0 => none
  | i, level, fuel + 1 =>
    if i ≥ n then none
    else
      let t := ct i
      if t &&& TYPE_PDI ≠ 0 then
        if level = 1 then some i else matchingPDIAux ct n (i + 1) (level - 1) fuel
      else if t &&& ISOLATE_INIT_TYPES ≠ 0 then
        matchingPDIAux ct n (i + 1) (level + 1) fuel
      else matchingPDIAux ct n (i + 1) level fuel

/-- indexOfMatchingPDI: `none` models the JS return value -1. -/
def indexOfMatchingPDI (ct : NMap) (n isolateStart : Nat) : Option Nat :=
  matchingPDIAux ct n (isolateStart + 1) 1 (n + 1)

/-- determineAutoEmbedLevel (src lines 779-798), fuelled; the index strictly
increases each step (a successful isolate skip jumps to an index past the
initiator), so fuel `n + 1` suffices. -/
def determineAutoEmbedLevelAux (ct : NMap) (n : Nat) (isFSI : Bool) :
    Nat → Nat → Nat
  | _, 0 => 0
  | i, fuel + 1 =>
    if i ≥ n then 0
    else
      let t := ct i
      if t &&& (TYPE_R ||| TYPE_AL) ≠ 0 then 1
      else if t &&& (TYPE_B ||| TYPE_L) ≠ 0 ∨ (isFSI ∧ t = TYPE_PDI) then 0
      else if t &&& ISOLATE_INIT_TYPES ≠ 0 then
        let next :=
          match indexOfMatchingPDI ct n i with
          | none => n
          | some p => p
        determineAutoEmbedLevelAux ct n isFSI (next + 1) fuel
      else determineAutoEmbedLevelAux ct n isFSI (i + 1) fuel

def determineAutoEmbedLevel (ct : NMap) (n : Nat) (startCpIdx : Nat)
    (isFSI : Bool) : Nat :=
  determineAutoEmbedLevelAux ct n isFSI startCpIdx (n + 1)

/-! ## Paragraph segmentation (src lines 98-126) -/

structure Para where
  start : Nat
  paraEnd : Nat
  level : Nat
deriving DecidableEq, Repr

/-- One step of the paragraph-splitting loop at code point `cpIdx`. -/
def splitStep (ct : NMap) (cps : List Nat) (stringLength : Nat)
    (levelOf : Nat → Nat) (st : List Para × Option Para) (cpIdx : Nat) :
    List Para × Option Para :=
  let codeUnitIndex := cpToCu cps cpIdx
  let st1 : List Para × Option Para :=
    match st.2 with
    | none =>
      (st.1, some { start := codeUnitIndex, paraEnd := stringLength - 1,
                    level := levelOf cpIdx })
    | some p => (st.1, some p)
  match st1.2 with
  | none => st1
  | some p =>
    if ct cpIdx &&& TYPE_B ≠ 0 then
      (st1.1 ++ [({ p with paraEnd := codeUnitIndex } : Para)], none)
    else st1

/-- The paragraph base level chosen at opening position `cpIdx`
(src line 113). -/
def paraLevelOf (ct : NMap) (n : Nat) (dir : BaseDirection) (cpIdx : Nat) : Nat :=
  match dir with
  | BaseDirection.rtl => 1
  | BaseDirection.ltr => 0
  | BaseDirection.auto => determineAutoEmbedLevel ct n cpIdx false

/-- paragraphs (src lines 100-126): the split of the input into paragraph
records carrying code-unit offsets. -/
def paragraphsOf (env : BidiEnv) (cps : List Nat) (dir : BaseDirection) :
    List Para :=
  let ct := charTypes0 env cps
  let n := cps.length
  let stringLength := strLength cps
  let res := (List.range n).foldl
    (splitStep ct cps stringLength (paraLevelOf ct n dir)) ([], none)
  match res.2 with
  | none => res.1
  | some p => res.1 ++ [p]

/-! ## Option-valued left fold

Used wherever a JS loop body can crash or hang: `none` aborts the fold. -/

def foldlOpt {σ α : Type} (f : σ → α → Option σ) : σ → List α → Option σ
  | s, [] => some s
  | s, a :: rest =>
    match f s a with
    | none => none
    | some s' => foldlOpt f s' rest

/-! ## Explicit levels and directions, X1-X8 (src lines 133-278) -/

/-- A directional status stack frame (src lines 135-139).  The override is
stored as 0 (neutral) or the TYPE_L / TYPE_R flag, exactly as the source
stores it (src line 188). -/
structure Frame where
  level : Nat
  override : Nat
  isolate : Bool
  isolInitIndex : Option Nat := none

/-- The state threaded through the explicit-levels loop of one paragraph. -/
structure XState where
  ts : TypeState
  embedLevels : NMap
  statusStack : List Frame
  overflowIsolateCount : Nat
  overflowEmbeddingCount : Nat
  validIsolateCount : Nat
  isolationPairs : List (Nat × Nat)

/-- JS `isolationPairs.get k` with the newest binding shadowing older ones. -/
def lookupPair (pairs : List (Nat × Nat)) (k : Nat) : Option Nat :=
  (pairs.find? (fun p => p.1 = k)).map (fun p => p.2)

def hasPair (pairs : List (Nat × Nat)) (k : Nat) : Bool :=
  (lookupPair pairs k).isSome

/-- The while loop of X6a (src lines 228-230): pop until the top frame is an
isolate frame; popping an empty stack reads the top of an empty array, which
crashes in JS (`none`). -/
def popToIsolate : List Frame → Option (List Frame)
  | [] => none
  | f :: rest => if f.isolate then some (f :: rest) else popToIsolate rest

def MAX_DEPTH : Nat := 125

def nextEven (n : Nat) : Nat := n + (if n % 2 = 1 then 1 else 2)

def nextOdd (n : Nat) : Nat := n + (if n % 2 = 1 then 2 else 1)

/-- X2-X3 (src lines 167-179): RLE / LRE. -/
def xRLEstep (st : XState) (cpIdx charType : Nat) (stackTop : Frame) : XState :=
  let lv := updf st.embedLevels cpIdx stackTop.level
  let level := (if charType = TYPE_RLE then nextOdd else nextEven) stackTop.level
  if level ≤ MAX_DEPTH ∧ st.overflowIsolateCount = 0 ∧
      st.overflowEmbeddingCount = 0 then
    { st with
      embedLevels := lv,
      statusStack :=
        ({ level := level, override := 0, isolate := false } : Frame) ::
          st.statusStack }
  else if st.overflowIsolateCount = 0 then
    { st with
      embedLevels := lv,
      overflowEmbeddingCount := st.overflowEmbeddingCount + 1 }
  else { st with embedLevels := lv }

/-- X4-X5 (src lines 182-194): RLO / LRO. -/
def xRLOstep (st : XState) (cpIdx charType : Nat) (stackTop : Frame) : XState :=
  let lv := updf st.embedLevels cpIdx stackTop.level
  let level := (if charType = TYPE_RLO then nextOdd else nextEven) stackTop.level
  if level ≤ MAX_DEPTH ∧ st.overflowIsolateCount = 0 ∧
      st.overflowEmbeddingCount = 0 then
    { st with
      embedLevels := lv,
      statusStack :=
        ({ level := level,
           override := if charType &&& TYPE_RLO ≠ 0 then TYPE_R else TYPE_L,
           isolate := false } : Frame) :: st.statusStack }
  else if st.overflowIsolateCount = 0 then
    { st with
      embedLevels := lv,
      overflowEmbeddingCount := st.overflowEmbeddingCount + 1 }
  else { st with embedLevels := lv }

/-- X5a-X5c (src lines 197-220): the isolate initiators. -/
def xIsoStep (n : Nat) (st : XState) (cpIdx charType : Nat) (stackTop : Frame) :
    XState :=
  let charType' :=
    if charType &&& TYPE_FSI ≠ 0 then
      if determineAutoEmbedLevel st.ts.charTypes n (cpIdx + 1) true = 1 then
        TYPE_RLI
      else TYPE_LRI
    else charType
  let lv := updf st.embedLevels cpIdx stackTop.level
  let ts2 :=
    if stackTop.override ≠ 0 then changeCharType st.ts cpIdx stackTop.override
    else st.ts
  let level := (if charType' = TYPE_RLI then nextOdd else nextEven) stackTop.level
  if level ≤ MAX_DEPTH ∧ st.overflowIsolateCount = 0 ∧
      st.overflowEmbeddingCount = 0 then
    { st with
      ts := ts2,
      embedLevels := lv,
      validIsolateCount := st.validIsolateCount + 1,
      statusStack :=
        ({ level := level, override := 0, isolate := true,
           isolInitIndex := some cpIdx } : Frame) :: st.statusStack }
  else
    { st with
      ts := ts2,
      embedLevels := lv,
      overflowIsolateCount := st.overflowIsolateCount + 1 }

/-- X6a (src lines 223-248): PDI. -/
def xPDIstep (cps : List Nat) (st : XState) (cpIdx : Nat) : Option XState :=
  let st1opt : Option XState :=
    if st.overflowIsolateCount > 0 then
      some { st with overflowIsolateCount := st.overflowIsolateCount - 1 }
    else if st.validIsolateCount > 0 then
      match popToIsolate st.statusStack with
      | none => none
      | some popped =>
        match popped.head? with
        | none => none
        | some isoFrame =>
          let pairs' :=
            match isoFrame.isolInitIndex with
            | none => st.isolationPairs
            | some isolInitCpIdx =>
              let isolInitCodeUnitIndex := cpToCu cps isolInitCpIdx
              let pdiCodeUnitIndex := cpToCu cps cpIdx
              (pdiCodeUnitIndex, isolInitCodeUnitIndex) ::
                (isolInitCodeUnitIndex, pdiCodeUnitIndex) :: st.isolationPairs
          some { st with
            overflowEmbeddingCount := 0,
            statusStack := popped.tail,
            validIsolateCount := st.validIsolateCount - 1,
            isolationPairs := pairs' }
    else some st
  match st1opt with
  | none => none
  | some st1 =>
    match st1.statusStack.head? with
    | none => none
    | some stackTop2 =>
      let lv := updf st1.embedLevels cpIdx stackTop2.level
      let ts2 :=
        if stackTop2.override ≠ 0 then
          changeCharType st1.ts cpIdx stackTop2.override
        else st1.ts
      some { st1 with ts := ts2, embedLevels := lv }

/-- X7 (src lines 252-262): PDF. -/
def xPDFstep (st : XState) (cpIdx : Nat) (stackTop : Frame) : Option XState :=
  let st1 : XState :=
    if st.overflowIsolateCount = 0 then
      if st.overflowEmbeddingCount > 0 then
        { st with overflowEmbeddingCount := st.overflowEmbeddingCount - 1 }
      else if ¬stackTop.isolate ∧ st.statusStack.length > 1 then
        { st with statusStack := st.statusStack.tail }
      else st
    else st
  match st1.statusStack.head? with
  | none => none
  | some stackTop2 =>
    some { st1 with embedLevels := updf st1.embedLevels cpIdx stackTop2.level }

/-- X6 (src lines 271-277): the non-formatting characters. -/
def xDefStep (st : XState) (cpIdx charType : Nat) (stackTop : Frame) : XState :=
  let lv := updf st.embedLevels cpIdx stackTop.level
  let ts2 :=
    if stackTop.override ≠ 0 ∧ charType ≠ TYPE_BN then
      changeCharType st.ts cpIdx stackTop.override
    else st.ts
  { st with ts := ts2, embedLevels := lv }

/-- One iteration of the explicit-levels loop (src lines 155-278) at code
point `cpIdx` of a paragraph with base level `paraLevel`, dispatching on the
character class to the per-rule steps above. -/
def x6step (cps : List Nat) (n : Nat) (paraLevel : Nat) (st : XState)
    (cpIdx : Nat) : Option XState :=
  let charType := st.ts.charTypes cpIdx
  match st.statusStack.head? with
  | none => none
  | some stackTop =>
    let counts1 := countInit st.ts.counts charType
    let ts1 : TypeState := { charTypes := st.ts.charTypes, counts := counts1 }
    let st := { st with ts := ts1 }
    if charType &&& FORMATTING_TYPES ≠ 0 then
      if charType &&& (TYPE_RLE ||| TYPE_LRE) ≠ 0 then
        some (xRLEstep st cpIdx charType stackTop)
      else if charType &&& (TYPE_RLO ||| TYPE_LRO) ≠ 0 then
        some (xRLOstep st cpIdx charType stackTop)
      else if charType &&& ISOLATE_INIT_TYPES ≠ 0 then
        some (xIsoStep n st cpIdx charType stackTop)
      else if charType &&& TYPE_PDI ≠ 0 then
        xPDIstep cps st cpIdx
      else if charType &&& TYPE_PDF ≠ 0 then
        xPDFstep st cpIdx stackTop
      -- X8 (src lines 265-267)
      else
        some { st with embedLevels := updf st.embedLevels cpIdx paraLevel }
    else
      some (xDefStep st cpIdx charType stackTop)

/-- The list of code point indices of a paragraph,
`[paraStartCpIdx, ..., paraEndCpIdx]`. -/
def paraRange (paraStartCp paraEndCp : Nat) : List Nat :=
  List.range' paraStartCp (paraEndCp + 1 - paraStartCp)

/-- The full explicit-levels pass over one paragraph (src lines 135-278);
the histogram is cleared at entry (src line 144) and the status stack starts
with the single base frame. -/
def explicitPass (cps : List Nat) (n : Nat) (para : Para)
    (paraStartCp paraEndCp : Nat) (ts0 : TypeState) (lv0 : NMap)
    (pairs0 : List (Nat × Nat)) : Option XState :=
  let init : XState :=
    { ts := { charTypes := ts0.charTypes, counts := CountMap.empty },
      embedLevels := lv0,
      statusStack := [{ level := para.level, override := 0, isolate := false }],
      overflowIsolateCount := 0,
      overflowEmbeddingCount := 0,
      validIsolateCount := 0,
      isolationPairs := pairs0 }
  foldlOpt (x6step cps n para.level) init (paraRange paraStartCp paraEndCp)

/-! ## Level runs and isolating run sequences, X10 / BD13 (src lines 286-386) -/

/-- A maximal level run (src lines 314-320).  The source field `_end` is
named `stop` here because `end` is a Lean keyword. -/
structure Run where
  start : Nat
  stop : Nat
  level : Nat
  startsWithPDI : Bool
  endsWithIsolInit : Bool
deriving DecidableEq, Repr, Inhabited

/-- One step of the run-building loop (src lines 292-326). -/
def runStep (ct lv : NMap) (st : List Run × Option Run) (cpIdx : Nat) :
    List Run × Option Run :=
  let charType := ct cpIdx
  if charType &&& TYPE_BN ≠ 0 then st
  else
    let isIsolInit := charType &&& ISOLATE_INIT_TYPES ≠ 0
    let isPDI := charType = TYPE_PDI
    match st.2 with
    | some r =>
      if lv cpIdx = r.level then
        (st.1, some { r with stop := cpIdx, endsWithIsolInit := isIsolInit })
      else
        (st.1 ++ [r],
         some { start := cpIdx, stop := cpIdx, level := lv cpIdx,
                startsWithPDI := isPDI, endsWithIsolInit := isIsolInit })
    | none =>
      (st.1,
       some { start := cpIdx, stop := cpIdx, level := lv cpIdx,
              startsWithPDI := isPDI, endsWithIsolInit := isIsolInit })

/-- levelRuns (src lines 288-326) of one paragraph. -/
def levelRunsOf (ct lv : NMap) (paraStartCp paraEndCp : Nat) : List Run :=
  let res := (paraRange paraStartCp paraEndCp).foldl (runStep ct lv) ([], none)
  match res.2 with
  | none => res.1
  | some r => res.1 ++ [r]

/-- The inner search of the BD13 chaining loop (src lines 335-341): the first
run at list index above `runIdx` whose start is `pdiCpIdx`. -/
def findRunFrom (runs : List Run) (runIdx pdiCpIdx : Nat) : Option Run :=
  (runs.drop (runIdx + 1)).find? (fun r => r.start = pdiCpIdx)

/-- The BD13 chaining loop (src line 334).  The JS loop keeps running while
the current run ends with an isolate initiator whose index is a key of the
pair map; when the inner search finds no run its condition can never change,
so the JS function spins forever — that case is `none`.  The loop state is
just the current run, so if a run ever repeats the JS loop is also infinite;
with fuel `runs.length + 1` the fuel runs out only in that cyclic case
(each successful step appends a run, and a terminating JS loop never repeats
one), which is therefore also mapped to `none`. -/
def chainRuns (runs : List Run) (pairs : List (Nat × Nat)) (runIdx : Nat) :
    Run → List Run → Nat → Option (List Run)
  | _, _, 0 => none
  | cur, acc, fuel + 1 =>
    if cur.endsWithIsolInit then
      match lookupPair pairs cur.stop with
      | none => some acc
      | some pdiCpIdx =>
        match findRunFrom runs runIdx pdiCpIdx with
        | none => none
        | some r' => chainRuns runs pairs runIdx r' (acc ++ [r']) fuel
    else some acc

/-- An isolating run sequence: the flattened code point index list plus the
sos and eos boundary classes (src line 327). -/
structure IsolSeq where
  seqIndices : List Nat
  sosType : Nat
  eosType : Nat
deriving DecidableEq, Repr

/-- Backward scan for the level before a sequence (src lines 355-365):
from `i` downward for `steps` positions, skipping BN-like characters. -/
def scanLevelBack (ct lv : NMap) (dflt : Nat) : Nat → Nat → Nat
  | _, 0 => dflt
  | i, steps + 1 =>
    if ct i &&& BN_LIKE_TYPES ≠ 0 then scanLevelBack ct lv dflt (i - 1) steps
    else lv i

/-- Forward scan for the level after a sequence (src lines 370-378). -/
def scanLevelFwd (ct lv : NMap) (dflt : Nat) : Nat → Nat → Nat
  | _, 0 => dflt
  | i, steps + 1 =>
    if ct i &&& BN_LIKE_TYPES ≠ 0 then scanLevelFwd ct lv dflt (i + 1) steps
    else lv i

/-- Sequence construction for the run at list index `runIdx`
(src lines 328-385); `none` when the chaining loop diverges. -/
def seqForRun (ct lv : NMap) (runs : List Run) (pairs : List (Nat × Nat))
    (paraStartCp paraEndCp paraLevel : Nat) (runIdx : Nat) (run : Run) :
    Option (Option IsolSeq) :=
  if run.startsWithPDI ∧ hasPair pairs run.start then some none
  else
    match chainRuns runs pairs runIdx run [run] (runs.length + 1) with
    | none => none
    | some seqRuns =>
      let seqIndices :=
        seqRuns.foldl (fun acc r => acc ++ paraRange r.start r.stop) []
      let first := seqIndices.headD 0
      let firstLevel := lv first
      let prevLevel :=
        scanLevelBack ct lv paraLevel (first - 1) (first - paraStartCp)
      let lastCpIdx := seqIndices.getLastD 0
      let lastLevel := lv lastCpIdx
      let nextLevel :=
        if ct lastCpIdx &&& ISOLATE_INIT_TYPES ≠ 0 then paraLevel
        else scanLevelFwd ct lv paraLevel (lastCpIdx + 1) (paraEndCp - lastCpIdx)
      some (some
        { seqIndices := seqIndices,
          sosType := if max prevLevel firstLevel % 2 = 1 then TYPE_R else TYPE_L,
          eosType := if max nextLevel lastLevel % 2 = 1 then TYPE_R else TYPE_L })

/-- isolatingRunSeqs (src lines 327-386); `none` when some chain diverges. -/
def isolatingRunSeqsOf (ct lv : NMap) (runs : List Run)
    (pairs : List (Nat × Nat)) (paraStartCp paraEndCp paraLevel : Nat) :
    Option (List IsolSeq) :=
  foldlOpt
    (fun acc runIdx =>
      match runs.getD runIdx default with
      | run =>
        match seqForRun ct lv runs pairs paraStartCp paraEndCp paraLevel runIdx run with
        | none => none
        | some none => some acc
        | some (some sq) => some (acc ++ [sq]))
    [] (List.range runs.length)

/-! ## Weak resolution W1-W7 (src lines 399-534)

All passes operate on the flattened index list `seq` of one isolating run
sequence; reads and writes go through the shared class array. -/

/-- The state visible to the per-sequence passes: the class array with its
histogram, and the (read-only there) level array. -/
structure RState where
  ts : TypeState
  embedLevels : NMap

/-- W1 backward scan (src lines 409-415): the class of the nearest preceding
non-BN-like character, or sos. -/
def w1Back (ct : NMap) (seq : List Nat) (sos : Nat) : Nat → Nat
  | 0 => sos
  | sj + 1 =>
    let t := ct (seq.getD sj 0)
    if t &&& BN_LIKE_TYPES ≠ 0 then w1Back ct seq sos sj else t

/-- W1 (src lines 404-420). -/
def w1 (s : TypeState) (seq : List Nat) (sos : Nat) : TypeState :=
  (List.range seq.length).foldl
    (fun s si =>
      let cpIdx := seq.getD si 0
      if s.charTypes cpIdx &&& TYPE_NSM ≠ 0 then
        let prevType := w1Back s.charTypes seq sos si
        changeCharType s cpIdx
          (if prevType &&& (ISOLATE_INIT_TYPES ||| TYPE_PDI) ≠ 0 then TYPE_ON
           else prevType)
      else s)
    s

/-- W2 backward scan (src lines 428-437): the first strong class looking
backward, sos past the sequence head. -/
def w2Back (ct : NMap) (seq : List Nat) (sos : Nat) : Nat → Nat
  | 0 => sos
  | sj + 1 =>
    let t := ct (seq.getD sj 0)
    if t &&& STRONG_TYPES ≠ 0 then t else w2Back ct seq sos sj

/-- W2 (src lines 424-440). -/
def w2 (s : TypeState) (seq : List Nat) (sos : Nat) : TypeState :=
  (List.range seq.length).foldl
    (fun s si =>
      let cpIdx := seq.getD si 0
      if s.charTypes cpIdx &&& TYPE_EN ≠ 0 then
        if w2Back s.charTypes seq sos si = TYPE_AL then
          changeCharType s cpIdx TYPE_AN
        else s
      else s)
    s

/-- W3 (src lines 443-450). -/
def w3 (s : TypeState) (seq : List Nat) : TypeState :=
  (List.range seq.length).foldl
    (fun s si =>
      let cpIdx := seq.getD si 0
      if s.charTypes cpIdx &&& TYPE_AL ≠ 0 then changeCharType s cpIdx TYPE_R
      else s)
    s

/-- W4 backward scan (src lines 460-465): the first non-BN-like class, or
the last class read on exhaustion (mirroring the JS loop variable). -/
def w4Back (ct : NMap) (seq : List Nat) : Nat → Nat → Nat
  | acc, 0 => acc
  | _, sj + 1 =>
    let t := ct (seq.getD sj 0)
    if t &&& BN_LIKE_TYPES ≠ 0 then w4Back ct seq t sj else t

/-- W4 forward scan (src lines 467-471), from `sj` for `steps` positions. -/
def w4Fwd (ct : NMap) (seq : List Nat) : Nat → Nat → Nat → Nat
  | acc, _, 0 => acc
  | _, sj, steps + 1 =>
    let t := ct (seq.getD sj 0)
    if t &&& BN_LIKE_TYPES ≠ 0 then w4Fwd ct seq t (sj + 1) steps else t

/-- W4 (src lines 454-479). -/
def w4 (s : TypeState) (seq : List Nat) : TypeState :=
  (List.range' 1 (seq.length - 1 - 1)).foldl
    (fun s si =>
      let cpIdx := seq.getD si 0
      if s.charTypes cpIdx &&& (TYPE_ES ||| TYPE_CS) ≠ 0 then
        let prevType := w4Back s.charTypes seq 0 si
        let nextType := w4Fwd s.charTypes seq 0 (si + 1) (seq.length - (si + 1))
        if prevType = nextType ∧
            (if s.charTypes cpIdx = TYPE_ES then prevType = TYPE_EN
             else prevType &&& (TYPE_EN ||| TYPE_AN) ≠ 0) then
          changeCharType s cpIdx prevType
        else s
      else s)
    s

/-- W5 backward rewrite (src lines 487-489). -/
def w5Back (s : TypeState) (seq : List Nat) : Nat → TypeState
  | 0 => s
  | sj + 1 =>
    let cpIdx := seq.getD sj 0
    if s.charTypes cpIdx &&& (TYPE_ET ||| BN_LIKE_TYPES) ≠ 0 then
      w5Back (changeCharType s cpIdx TYPE_EN) seq sj
    else s

/-- W5 forward rewrite (src lines 491-495); returns the state and the stop
position of the shared loop variable. -/
def w5Fwd (s : TypeState) (seq : List Nat) (len : Nat) :
    Nat → Nat → TypeState × Nat
  | si, 0 => (s, si)
  | si, fuel + 1 =>
    if si < len then
      let cpIdx := seq.getD si 0
      let t := s.charTypes cpIdx
      if t &&& (TYPE_ET ||| BN_LIKE_TYPES ||| TYPE_EN) ≠ 0 then
        let s' := if t ≠ TYPE_EN then changeCharType s cpIdx TYPE_EN else s
        w5Fwd s' seq len (si + 1) fuel
      else (s, si)
    else (s, si)

/-- W5 outer loop (src lines 482-498); the index advances by at least one per
step, so fuel `len + 1` never runs out before the bound check stops it. -/
def w5Go (s : TypeState) (seq : List Nat) (len : Nat) : Nat → Nat → TypeState
  | _, 0 => s
  | si, fuel + 1 =>
    if si < len then
      let cpIdx := seq.getD si 0
      if s.charTypes cpIdx &&& TYPE_EN ≠ 0 then
        let s1 := w5Back s seq si
        let res := w5Fwd s1 seq len (si + 1) (len - (si + 1))
        w5Go res.1 seq len (res.2 + 1) fuel
      else w5Go s seq len (si + 1) fuel
    else s

/-- W6 backward 5.2 rewrite (src lines 508-510). -/
def w6Back (s : TypeState) (seq : List Nat) : Nat → TypeState
  | 0 => s
  | sj + 1 =>
    let cpIdx := seq.getD sj 0
    if s.charTypes cpIdx &&& BN_LIKE_TYPES ≠ 0 then
      w6Back (changeCharType s cpIdx TYPE_ON) seq sj
    else s

/-- W6 forward 5.2 rewrite (src lines 512-514). -/
def w6Fwd (s : TypeState) (seq : List Nat) : Nat → Nat → TypeState
  | _, 0 => s
  | sj, steps + 1 =>
    let cpIdx := seq.getD sj 0
    if s.charTypes cpIdx &&& BN_LIKE_TYPES ≠ 0 then
      w6Fwd (changeCharType s cpIdx TYPE_ON) seq (sj + 1) steps
    else s

/-- W6 (src lines 501-517). -/
def w6 (s : TypeState) (seq : List Nat) : TypeState :=
  (List.range seq.length).foldl
    (fun s si =>
      let cpIdx := seq.getD si 0
      if s.charTypes cpIdx &&& (TYPE_ET ||| TYPE_ES ||| TYPE_CS) ≠ 0 then
        let s1 := changeCharType s cpIdx TYPE_ON
        let s2 := w6Back s1 seq si
        w6Fwd s2 seq (si + 1) (seq.length - (si + 1))
      else s)
    s

/-- W7 (src lines 522-534), a single forward pass tracking the previous
strong class, initialised to sos. -/
def w7 (s : TypeState) (seq : List Nat) (sos : Nat) : TypeState :=
  ((List.range seq.length).foldl
    (fun (st : TypeState × Nat) si =>
      let cpIdx := st.1.charTypes (seq.getD si 0)
      if cpIdx &&& TYPE_EN ≠ 0 then
        if st.2 = TYPE_L then (changeCharType st.1 (seq.getD si 0) TYPE_L, st.2)
        else st
      else if cpIdx &&& STRONG_TYPES ≠ 0 then (st.1, cpIdx)
      else st)
    (s, sos)).1

/-! ## N0: bracket pairs (src lines 539-664) -/

def R_TYPES_FOR_N_STEPS : Nat := TYPE_R ||| TYPE_EN ||| TYPE_AN

def STRONG_TYPES_FOR_N_STEPS : Nat := R_TYPES_FOR_N_STEPS ||| TYPE_L

/-- BD16 opener matching (src lines 569-572); the JS null propagation through
getCanonicalBracket composes as Option.bind. -/
def brMatches (env : BidiEnv) (stackChar oppositeBracket ch : Nat) : Bool :=
  stackChar = oppositeBracket ∨
  (env.getCanonicalBracket ch).bind env.closingToOpeningBracket = some stackChar ∨
  (env.getCanonicalBracket stackChar).bind env.openingToClosingBracket = some ch

/-- Search the opener stack from the top (src lines 567-578); returns the
depth of the match and the stored sequence index. -/
def findOpener (env : BidiEnv) (oppositeBracket ch : Nat) :
    List (Nat × Nat) → Nat → Option (Nat × Nat)
  | [], _ => none
  | (sc, osi) :: rest, k =>
    if brMatches env sc oppositeBracket ch then some (k, osi)
    else findOpener env oppositeBracket ch rest (k + 1)

/-- The bracket-identification scan state (src lines 546-581): the opener
stack (head = newest), the emitted pairs of sequence indices, and whether the
scan was aborted by stack overflow (the JS break at src line 562). -/
structure BrScanState where
  openerStack : List (Nat × Nat)
  pairs : List (Nat × Nat)
  stopped : Bool

/-- One step of the bracket-identification scan (src lines 549-581). -/
def brScanStep (env : BidiEnv) (cps : List Nat) (ct : NMap)
    (seq : List Nat) (st : BrScanState) (si : Nat) : BrScanState :=
  if st.stopped then st
  else
    let cpIdx := seq.getD si 0
    if ct cpIdx &&& NEUTRAL_ISOLATE_TYPES ≠ 0 then
      let ch := cps.getD cpIdx 0
      if (env.openingToClosingBracket ch).isSome then
        if st.openerStack.length < 63 then
          { st with openerStack := (ch, si) :: st.openerStack }
        else { st with stopped := true }
      else
        match env.closingToOpeningBracket ch with
        | none => st
        | some oppositeBracket =>
          match findOpener env oppositeBracket ch st.openerStack 0 with
          | none => st
          | some ko =>
            { st with pairs := st.pairs ++ [(ko.2, si)],
                      openerStack := st.openerStack.drop (ko.1 + 1) }
    else st

/-- The full bracket-identification scan of a sequence. -/
def brScan (env : BidiEnv) (cps : List Nat) (ct : NMap)
    (seq : List Nat) : BrScanState :=
  (List.range seq.length).foldl (brScanStep env cps ct seq)
    { openerStack := [], pairs := [], stopped := false }

/-- Insertion of a pair into a list sorted by opening position. -/
def insertByFst (x : Nat × Nat) : List (Nat × Nat) → List (Nat × Nat)
  | [] => [x]
  | y :: rest => if x.1 ≤ y.1 then x :: y :: rest else y :: insertByFst x rest

/-- Sorting the pairs by opening position (src line 582); opener indices are
pairwise distinct, so the JS comparator sort has this unique result. -/
def sortPairs (l : List (Nat × Nat)) : List (Nat × Nat) :=
  l.foldr insertByFst []

/-- N0 inside scan (src lines 591-605): look for a strong class between the
brackets; the Bool records whether any strong class was seen, the Nat is the
embedding direction if a matching one was seen (0 otherwise). -/
def n0Inside (ct : NMap) (seq : List Nat) (embedDir closeSi : Nat) :
    Nat → Bool → Nat → Bool × Nat
  | _, found, 0 => (found, 0)
  | si, found, fuel + 1 =>
    if si < closeSi then
      let t := ct (seq.getD si 0)
      if t &&& STRONG_TYPES_FOR_N_STEPS ≠ 0 then
        let lr := if t &&& R_TYPES_FOR_N_STEPS ≠ 0 then TYPE_R else TYPE_L
        if lr = embedDir then (true, lr)
        else n0Inside ct seq embedDir closeSi (si + 1) true fuel
      else n0Inside ct seq embedDir closeSi (si + 1) found fuel
    else (found, 0)

/-- N0 backward context scan (src lines 613-627). -/
def n0Before (ct : NMap) (seq : List Nat) (embedDir sos : Nat) :
    Nat → Nat
  | 0 => sos
  | sj + 1 =>
    let t := ct (seq.getD sj 0)
    if t &&& STRONG_TYPES_FOR_N_STEPS ≠ 0 then
      let lr := if t &&& R_TYPES_FOR_N_STEPS ≠ 0 then TYPE_R else TYPE_L
      if lr ≠ embedDir then lr else embedDir
    else n0Before ct seq embedDir sos sj

/-- N0 NSM propagation after a resolved bracket (src lines 639-648 and
652-661): the first non-BN-like character after the bracket changes when its
original class (re-queried from the table) is NSM. -/
def n0NsmProp (env : BidiEnv) (cps : List Nat) (s : TypeState)
    (seq : List Nat) (len useStrong : Nat) : Nat → Nat → TypeState
  | _, 0 => s
  | si, fuel + 1 =>
    if si < len then
      let cpIdx := seq.getD si 0
      if s.charTypes cpIdx &&& BN_LIKE_TYPES ≠ 0 then
        n0NsmProp env cps s seq len useStrong (si + 1) fuel
      else if env.getBidiCharType (cps.getD cpIdx 0) &&& TYPE_NSM ≠ 0 then
        changeCharType s cpIdx useStrong
      else s
    else s

/-- The strong type chosen for a bracket pair (src lines 591-628). -/
def n0UseStrong (ct : NMap) (seq : List Nat) (embedDir sos : Nat)
    (pr : Nat × Nat) : Nat :=
  let inside :=
    n0Inside ct seq embedDir pr.2 (pr.1 + 1) false (pr.2 - (pr.1 + 1))
  if inside.1 ∧ inside.2 = 0 then n0Before ct seq embedDir sos pr.1
  else inside.2

/-- Processing of one bracket pair (src lines 585-664). -/
def n0PairStep (env : BidiEnv) (cps : List Nat) (seq : List Nat)
    (len embedDir sos : Nat) (s : TypeState) (pr : Nat × Nat) : TypeState :=
  let openSi := pr.1
  let closeSi := pr.2
  let useStrong := n0UseStrong s.charTypes seq embedDir sos pr
  if useStrong ≠ 0 then
    let s1 := changeCharType s (seq.getD openSi 0) useStrong
    let s2 := changeCharType s1 (seq.getD closeSi 0) useStrong
    let s3 :=
      if useStrong ≠ embedDir then
        n0NsmProp env cps s2 seq len useStrong (openSi + 1) (len - (openSi + 1))
      else s2
    if useStrong ≠ embedDir then
      n0NsmProp env cps s3 seq len useStrong (closeSi + 1) (len - (closeSi + 1))
    else s3
  else s

/-- N0 (src lines 539-664). -/
def n0 (env : BidiEnv) (cps : List Nat) (s : TypeState) (seq : List Nat)
    (len embedDir sos : Nat) : TypeState :=
  let pairs := sortPairs (brScan env cps s.charTypes seq).pairs
  pairs.foldl (n0PairStep env cps seq len embedDir sos) s

/-! ## N1-N2 (src lines 666-706) -/

/-- N1 backward scan (src lines 674-683): extend the NI run back across
BN-like characters; the Option is the sequence index of the stopping
character. -/
def n1Back (ct : NMap) (seq : List Nat) : Nat → Nat → Nat × Option Nat
  | acc, 0 => (acc, none)
  | acc, sj + 1 =>
    let t := ct (seq.getD sj 0)
    if t &&& BN_LIKE_TYPES ≠ 0 then n1Back ct seq sj sj else (acc, some sj)

/-- N1 forward scan (src lines 687-696). -/
def n1Fwd (ct : NMap) (seq : List Nat) (len : Nat) :
    Nat → Nat → Nat → Nat × Option Nat
  | acc, _, 0 => (acc, none)
  | acc, si2, fuel + 1 =>
    if si2 < len then
      let t := ct (seq.getD si2 0)
      if t &&& (NEUTRAL_ISOLATE_TYPES ||| BN_LIKE_TYPES) ≠ 0 then
        n1Fwd ct seq len si2 (si2 + 1) fuel
      else (acc, some si2)
    else (acc, none)

/-- The resolved type of the NI run at sequence position `si`
(src lines 672-699). -/
def n1Resolved (ct : NMap) (seq : List Nat) (len sos eos embedDir si : Nat) :
    Nat :=
  let back := n1Back ct seq si si
  let prevType :=
    match back.2 with
    | none => sos
    | some k =>
      if ct (seq.getD k 0) &&& R_TYPES_FOR_N_STEPS ≠ 0 then TYPE_R
      else TYPE_L
  let fwd := n1Fwd ct seq len si (si + 1) (len - (si + 1))
  let nextType :=
    match fwd.2 with
    | none => eos
    | some k =>
      if ct (seq.getD k 0) &&& R_TYPES_FOR_N_STEPS ≠ 0 then TYPE_R
      else TYPE_L
  if prevType = nextType then prevType else embedDir

/-- The N1/N2 loop (src lines 669-706); the loop index jumps past each
resolved run, so it advances by at least one per step. -/
def n1n2Go (s : TypeState) (seq : List Nat) (len sos eos embedDir : Nat) :
    Nat → Nat → TypeState
  | _, 0 => s
  | si, fuel + 1 =>
    if si < len then
      let cpIdx := seq.getD si 0
      if s.charTypes cpIdx &&& NEUTRAL_ISOLATE_TYPES ≠ 0 then
        let back := n1Back s.charTypes seq si si
        let fwd := n1Fwd s.charTypes seq len si (si + 1) (len - (si + 1))
        let resolvedType := n1Resolved s.charTypes seq len sos eos embedDir si
        let s' :=
          (List.range' back.1 (fwd.1 + 1 - back.1)).foldl
            (fun s sj => changeCharType s (seq.getD sj 0) resolvedType) s
        n1n2Go s' seq len sos eos embedDir (fwd.1 + 1) fuel
      else n1n2Go s seq len sos eos embedDir (si + 1) fuel
    else s

/-! ## Resolution of one isolating run sequence (src lines 388-708) -/

/-- The per-sequence resolution W1-W7, N0-N2 (src lines 389-708).  The level
array is read (for the embedding direction) but never written here. -/
def resolveSeq (env : BidiEnv) (cps : List Nat) (st : RState) (sq : IsolSeq) :
    RState :=
  let seq := sq.seqIndices
  let len := seq.length
  let sos := sq.sosType
  let eos := sq.eosType
  let embedDir :=
    if st.embedLevels (seq.headD 0) &&& 1 ≠ 0 then TYPE_R else TYPE_L
  let s0 := st.ts
  let s1 := if truthy (s0.counts TYPE_NSM) then w1 s0 seq sos else s0
  let s2 := if truthy (s1.counts TYPE_EN) then w2 s1 seq sos else s1
  let s3 := if truthy (s2.counts TYPE_AL) then w3 s2 seq else s2
  let s4 :=
    if truthy (s3.counts TYPE_ES) ∨ truthy (s3.counts TYPE_CS) then w4 s3 seq
    else s3
  let s5 := if truthy (s4.counts TYPE_EN) then w5Go s4 seq len 0 (len + 1) else s4
  let s6 :=
    if truthy (s5.counts TYPE_ET) ∨ truthy (s5.counts TYPE_ES) ∨
        truthy (s5.counts TYPE_CS) then w6 s5 seq
    else s5
  let s7 := if truthy (s6.counts TYPE_EN) then w7 s6 seq sos else s6
  let s8 :=
    if truthy (s7.counts NEUTRAL_ISOLATE_TYPES) then
      let sN := n0 env cps s7 seq len embedDir sos
      n1n2Go sN seq len sos eos embedDir 0 (len + 1)
    else s7
  { ts := s8, embedLevels := st.embedLevels }

/-- The loop over all isolating run sequences (src line 389). -/
def resolveAllSeqs (env : BidiEnv) (cps : List Nat) (st : RState)
    (seqs : List IsolSeq) : RState :=
  seqs.foldl (resolveSeq env cps) st

/-! ## Implicit levels I1-I2, rule 5.2 and L1 (src lines 710-755) -/

/-- The L1 backward walk (src lines 746-753): from position `j` downward for
`steps` positions, set the level of every contiguous position whose original
class (re-queried from the table) is TRAILING to the paragraph level, and
stop at the first position whose original class is not. -/
def l1Walk (orig : Nat → Nat) (paraLevel : Nat) :
    NMap → Nat → Nat → NMap
  | lv, _, 0 => lv
  | lv, j, steps + 1 =>
    if orig j &&& TRAILING_TYPES ≠ 0 then
      l1Walk orig paraLevel (updf lv j paraLevel) (j - 1) steps
    else lv

/-- I1, I2 and the rule-5.2 level copy at one position (src lines 713-738). -/
def i1i2With52 (ct : NMap) (paraStartCp paraLevel : Nat) (lv : NMap)
    (cpIdx : Nat) : NMap :=
  let level := lv cpIdx
  let t := ct cpIdx
  let lv1 :=
    if level % 2 = 1 then
      if t &&& (TYPE_L ||| TYPE_EN ||| TYPE_AN) ≠ 0 then
        updf lv cpIdx (level + 1)
      else lv
    else
      if t &&& TYPE_R ≠ 0 then updf lv cpIdx (level + 1)
      else if t &&& (TYPE_AN ||| TYPE_EN) ≠ 0 then updf lv cpIdx (level + 2)
      else lv
  if t &&& BN_LIKE_TYPES ≠ 0 then
    updf lv1 cpIdx (if cpIdx = paraStartCp then paraLevel else lv1 (cpIdx - 1))
  else lv1

/-- One iteration of the implicit-levels loop (src lines 713-755): I1/I2, the
5.2 copy, and the L1 reset whenever this position is the paragraph end or its
original class is S or B (src line 744). -/
def implicitStep (env : BidiEnv) (cps : List Nat) (ct : NMap)
    (paraStartCp paraEndCp paraLevel : Nat) (lv : NMap) (cpIdx : Nat) :
    NMap :=
  let lv2 := i1i2With52 ct paraStartCp paraLevel lv cpIdx
  if cpIdx = paraEndCp ∨
      env.getBidiCharType (cps.getD cpIdx 0) &&& (TYPE_S ||| TYPE_B) ≠ 0 then
    l1Walk (fun j => env.getBidiCharType (cps.getD j 0)) paraLevel lv2 cpIdx
      (cpIdx + 1 - paraStartCp)
  else lv2

/-- The implicit-levels loop over one paragraph (src lines 713-755). -/
def implicitPass (env : BidiEnv) (cps : List Nat) (ct : NMap)
    (paraStartCp paraEndCp paraLevel : Nat) (lv0 : NMap) : NMap :=
  (paraRange paraStartCp paraEndCp).foldl
    (implicitStep env cps ct paraStartCp paraEndCp paraLevel) lv0

/-! ## The per-paragraph pipeline and the public function -/

/-- The function-scope mutable state threaded across paragraphs: the class
array with its histogram, the per-code-point level array, and the isolation
pair map (which the source never clears between paragraphs). -/
structure GState where
  ts : TypeState
  embedLevels : NMap
  isolationPairs : List (Nat × Nat)

/-- One iteration of the per-paragraph loop (src lines 133-756). -/
def processParagraph (env : BidiEnv) (cps : List Nat) (g : GState)
    (para : Para) : Option GState :=
  let n := cps.length
  let paraStartCp := cuToCp cps para.start
  let paraEndCp := cuToCp cps para.paraEnd
  (explicitPass cps n para paraStartCp paraEndCp g.ts g.embedLevels
      g.isolationPairs).bind (fun x =>
    let runs := levelRunsOf x.ts.charTypes x.embedLevels paraStartCp paraEndCp
    (isolatingRunSeqsOf x.ts.charTypes x.embedLevels runs
        x.isolationPairs paraStartCp paraEndCp para.level).bind (fun seqs =>
      let r := resolveAllSeqs env cps
        { ts := x.ts, embedLevels := x.embedLevels } seqs
      let lv2 := implicitPass env cps r.ts.charTypes paraStartCp paraEndCp
        para.level r.embedLevels
      some { ts := r.ts, embedLevels := lv2,
             isolationPairs := x.isolationPairs }))

/-- The state before the first paragraph (src lines 68-96). -/
def initialState (env : BidiEnv) (cps : List Nat) : GState :=
  { ts := { charTypes := charTypes0 env cps, counts := CountMap.empty },
    embedLevels := { base := fun _ => 0 },
    isolationPairs := [] }

/-- getEmbeddingLevels up to (and including) the per-paragraph resolution:
the final internal state.  `none` models a crash or hang of the source. -/
def getEmbeddingLevelsFull? (env : BidiEnv) (cps : List Nat)
    (dir : BaseDirection) : Option GState :=
  foldlOpt (processParagraph env cps) (initialState env cps)
    (paragraphsOf env cps dir)

/-- The per-code-unit level function (src lines 758-769): each code point
writes its level to its code unit(s). -/
def finalizeFn (cps : List Nat) (lvCp : NMap) : NMap :=
  (List.range cps.length).foldl
    (fun f cpIdx =>
      let level := lvCp cpIdx
      let codeUnitIndex := cpToCu cps cpIdx
      let f1 := updf f codeUnitIndex level
      if cpLength (cps.getD cpIdx 0) = 2 then updf f1 (codeUnitIndex + 1) level
      else f1)
    { base := fun _ => 0 }

/-- The public result (src lines 773-776): the per-code-unit levels and the
paragraph records with code-unit offsets. -/
structure EmbedResult where
  levels : List Nat
  paragraphs : List Para
deriving DecidableEq, Repr

/-- getEmbeddingLevels (src lines 57-776).  `none` models a crash or hang of
the JS function. -/
def getEmbeddingLevels? (env : BidiEnv) (cps : List Nat)
    (dir : BaseDirection) : Option EmbedResult :=
  (getEmbeddingLevelsFull? env cps dir).map
    (fun g =>
      { levels := (List.range (strLength cps)).map (finalizeFn cps g.embedLevels).get,
        paragraphs := paragraphsOf env cps dir })

/-! ## Stage projections used in theorem statements -/

/-- The state right after the explicit pass of the first paragraph. -/
def firstParaX? (env : BidiEnv) (cps : List Nat) (dir : BaseDirection) :
    Option XState :=
  match paragraphsOf env cps dir with
  | [] => none
  | para :: _ =>
    let g := initialState env cps
    explicitPass cps cps.length para (cuToCp cps para.start)
      (cuToCp cps para.paraEnd) g.ts g.embedLevels g.isolationPairs

/-- The isolating run sequences built for the first paragraph. -/
def firstParaSeqs? (env : BidiEnv) (cps : List Nat) (dir : BaseDirection) :
    Option (List IsolSeq) :=
  match paragraphsOf env cps dir with
  | [] => none
  | para :: _ =>
    match firstParaX? env cps dir with
    | none => none
    | some x =>
      let paraStartCp := cuToCp cps para.start
      let paraEndCp := cuToCp cps para.paraEnd
      isolatingRunSeqsOf x.ts.charTypes x.embedLevels
        (levelRunsOf x.ts.charTypes x.embedLevels paraStartCp paraEndCp)
        x.isolationPairs paraStartCp paraEndCp para.level

/-! ## A concrete character table for the counterexamples and witnesses

The table agrees with the Unicode character database on every code point it
is queried at below; unlisted code points default to L (also a valid class).
The bracket tables hold the ASCII parenthesis pair. -/

def demoTable (cp : Nat) : Nat :=
  if 0x61 ≤ cp ∧ cp ≤ 0x7A then TYPE_L
  else if 0x41 ≤ cp ∧ cp ≤ 0x5A then TYPE_L
  else if 0x05D0 ≤ cp ∧ cp ≤ 0x05EA then TYPE_R
  else if cp = 0x0627 ∨ cp = 0x0628 ∨ cp = 0x062C then TYPE_AL
  else if 0x30 ≤ cp ∧ cp ≤ 0x39 then TYPE_EN
  else if cp = 0x20 then TYPE_WS
  else if cp = 0x2029 then TYPE_B
  else if cp = 0x202A then TYPE_LRE
  else if cp = 0x202B then TYPE_RLE
  else if cp = 0x202C then TYPE_PDF
  else if cp = 0x202D then TYPE_LRO
  else if cp = 0x202E then TYPE_RLO
  else if cp = 0x2066 then TYPE_LRI
  else if cp = 0x2067 then TYPE_RLI
  else if cp = 0x2068 then TYPE_FSI
  else if cp = 0x2069 then TYPE_PDI
  else if cp = 0x28 ∨ cp = 0x29 then TYPE_ON
  else if cp = 0x00AD ∨ cp = 0x200B then TYPE_BN
  else if cp = 0x24 then TYPE_ET
  else if cp = 0x2C then TYPE_CS
  else if cp = 0x2B then TYPE_ES
  else if cp = 0x0301 then TYPE_NSM
  else if cp = 0x1F600 then TYPE_ON
  else TYPE_L

def demoEnv : BidiEnv :=
  { getBidiCharType := demoTable,
    openingToClosingBracket := fun c => if c = 0x28 then some 0x29 else none,
    closingToOpeningBracket := fun c => if c = 0x29 then some 0x28 else none,
    getCanonicalBracket := fun _ => none }

/-- The C1 input: an emoji (two code units) before an LRI-a-PDI isolate, so
code-unit and code-point indices differ from index 1 on. -/
def cpsC1 : List Nat := [0x1F600, 0x2066, 0x61, 0x2069]

/-- The C3 input: a Hebrew letter, a soft hyphen (class BN), a digit. -/
def cpsC3 : List Nat := [0x05D0, 0x00AD, 0x31]

/-- The C5 input: LRI, emoji, LRI, a, PDI, PDI, on which the BD13 chaining
loop of the source spins forever. -/
def cpsC5 : List Nat := [0x2066, 0x1F600, 0x2066, 0x62, 0x2069, 0x2069]

/-- The C6 input: two emoji, then an isolate, then a paragraph separator and
a stray PDI; the isolate pair is recorded under code-unit keys 4 and 6, so
the level run starting at the PDI (code point 4) is spuriously treated as
chained-from and lands in no isolating run sequence. -/
def cpsC6 : List Nat := [0x1F600, 0x1F600, 0x2066, 0x61, 0x2069, 0x2029, 0x2069]

/-- The C7 input: 64 opening parentheses followed by 64 closing ones. -/
def cpsC7 : List Nat := List.replicate 64 0x28 ++ List.replicate 64 0x29

/-- The C2 input: 63 RLEs (reaching the maximum explicit depth 125) followed
by a European digit, which rule I2 then lifts to level 126. -/
def cpsC2 : List Nat := List.replicate 63 0x202B ++ [0x31]

/-- The single paragraph record of the C2 input. -/
def c2para : Para := { start := 0, paraEnd := 63, level := 0 }

/-- The state of the explicit-levels pass of the C2 input after `k` RLEs
(k ≤ 63), written in closed form: the histogram counts k RLEs, each RLE was
assigned the level below its own frame, and the status stack holds the base
frame plus one frame per RLE at the odd levels 1, 3, ..., 2k-1. -/
def rleState (k : Nat) : XState :=
  { ts := { charTypes := charTypes0 demoEnv cpsC2,
            counts := ⟨(List.range k).map
              (fun i => (TYPE_RLE, some ((k - i : Nat) : Int)))⟩ },
    embedLevels := { base := fun _ => 0,
                     entries := (List.range k).map (fun t =>
                       (k - 1 - t, if k - 1 - t = 0 then 0 else 2 * (k - 1 - t) - 1)) },
    statusStack := ((List.range k).map (fun t =>
      ({ level := 2 * (k - t) - 1, override := 0, isolate := false } : Frame))) ++
      [{ level := 0, override := 0, isolate := false }],
    overflowIsolateCount := 0,
    overflowEmbeddingCount := 0,
    validIsolateCount := 0,
    isolationPairs := [] }

/-- The state after the whole explicit pass of the C2 input: the final digit
is assigned the top level 125. -/
def c2x : XState :=
  { rleState 63 with
    ts := { charTypes := (rleState 63).ts.charTypes,
            counts := ⟨(TYPE_EN, some 1) :: (rleState 63).ts.counts.entries⟩ },
    embedLevels := updf (rleState 63).embedLevels 63 125 }

/-- The level runs of the C2 input: every RLE run is a singleton (the levels
0, 1, 3, ..., 123 all differ), and the digit forms a final run at 125. -/
def c2runs : List Run :=
  (List.range 63).map (fun i =>
    { start := i, stop := i, level := if i = 0 then 0 else 2 * i - 1,
      startsWithPDI := false, endsWithIsolInit := false }) ++
  [{ start := 63, stop := 63, level := 125,
     startsWithPDI := false, endsWithIsolInit := false }]

/-- The isolating run sequences of the C2 input: one singleton sequence per
run. -/
def c2seqs : List IsolSeq :=
  (List.range 64).map (fun i =>
    { seqIndices := [i], sosType := if i = 0 then TYPE_L else TYPE_R,
      eosType := TYPE_R })

/-- The per-code-point levels of the C2 input after the implicit pass: the
rule-5.2 copies give every RLE the level 0 of its predecessor, and I2 lifts
the digit from 125 to 126. -/
def c2lv : NMap :=
  { base := fun _ => 0,
    entries := ((List.range 64).map (fun t =>
      ((63 - t : Nat), if (63 - t : Nat) = 63 then 126 else 0))) ++
      (c2x.embedLevels).entries }

/-- The resolution-phase state of the C2 input (the weak and neutral passes
change nothing on it: there are no NSMs, ALs, separators, terminators or
neutrals, and the lone EN keeps its class because sos is R). -/
def c2r : RState := { ts := c2x.ts, embedLevels := c2x.embedLevels }

/-- An 8-sequence slice of the C2 sequence list, for chunked evaluation. -/
def c2seqChunk (a : Nat) : List IsolSeq :=
  (List.range' a 8).map (fun i =>
    { seqIndices := [i], sosType := if i = 0 then TYPE_L else TYPE_R,
      eosType := TYPE_R })

/-- The final internal state of the C2 input. -/
def c2g : GState := { ts := c2x.ts, embedLevels := c2lv, isolationPairs := [] }

/-- The loop body of the final code-unit mapping (src lines 760-769), named so
the fold of `finalizeFn` can be reasoned about step by step. -/
def finStep (cps : List Nat) (lvCp : NMap) (f : NMap) (cpIdx : Nat) : NMap :=
  let level := lvCp.get cpIdx
  let codeUnitIndex := cpToCu cps cpIdx
  let f1 := updf f codeUnitIndex level
  if cpLength (cps.getD cpIdx 0) = 2 then updf f1 (codeUnitIndex + 1) level else f1

/-!
# Theorems

Helper lemmas first, then the per-claim theorems, counterexamples and
witnesses.  The concrete evaluations below are kernel reductions; the
deepest one (the 63-RLE input of C2) is cut into chunks of eight explicit
steps against the closed-form states above.
-/

set_option maxRecDepth 4000

theorem updf_get (f : NMap) (i v j : Nat) :
    (updf f i v).get j = if j = i then v else f.get j := by
  simp only [NMap.get, updf, List.find?]
  by_cases h : i = j
  · subst h; simp
  · simp [h, Ne.symm h]

theorem updf_same (f : NMap) (i v : Nat) : (updf f i v).get i = v := by
  simp [updf_get]

theorem updf_ne (f : NMap) (i v j : Nat) (h : j ≠ i) :
    (updf f i v).get j = f.get j := by
  simp [updf_get, h]

theorem foldlOpt_append {σ α : Type} (f : σ → α → Option σ) :
    ∀ (l1 : List α) (s : σ) (l2 : List α),
    foldlOpt f s (l1 ++ l2) = (foldlOpt f s l1).bind (fun s' => foldlOpt f s' l2)
  | [], s, l2 => by simp [foldlOpt]
  | a :: l1, s, l2 => by
    simp only [List.cons_append, foldlOpt]
    cases f s a with
    | none => rfl
    | some s' => exact foldlOpt_append f l1 s' l2

theorem foldlOpt_single {σ α : Type} (f : σ → α → Option σ) (s r : σ) (a : α)
    (h : f s a = some r) : foldlOpt f s [a] = some r := by
  simp [foldlOpt, h]

/-- Symbolic glue: processParagraph unfolded along known stage results. -/
theorem processParagraph_eq (env : BidiEnv) (cps : List Nat) (g : GState)
    (para : Para) (x : XState) (seqs : List IsolSeq) (r : RState) (lv2 : NMap)
    (hx : explicitPass cps cps.length para (cuToCp cps para.start)
      (cuToCp cps para.paraEnd) g.ts g.embedLevels g.isolationPairs = some x)
    (hseqs : isolatingRunSeqsOf x.ts.charTypes x.embedLevels
      (levelRunsOf x.ts.charTypes x.embedLevels (cuToCp cps para.start)
        (cuToCp cps para.paraEnd))
      x.isolationPairs (cuToCp cps para.start) (cuToCp cps para.paraEnd)
      para.level = some seqs)
    (hr : resolveAllSeqs env cps { ts := x.ts, embedLevels := x.embedLevels } seqs = r)
    (hlv : implicitPass env cps r.ts.charTypes (cuToCp cps para.start)
      (cuToCp cps para.paraEnd) para.level r.embedLevels = lv2) :
    processParagraph env cps g para =
      some { ts := r.ts, embedLevels := lv2, isolationPairs := x.isolationPairs } := by
  simp only [processParagraph]
  rw [hx]
  simp only [Option.some_bind]
  rw [hseqs]
  simp only [Option.some_bind]
  rw [hr, hlv]

/-! ## The C2 evaluation chain -/

theorem c2ch0 : foldlOpt (x6step cpsC2 64 0) (rleState 0) (List.range' 0 8) = some (rleState 8) := by rfl

theorem c2ch1 : foldlOpt (x6step cpsC2 64 0) (rleState 8) (List.range' 8 8) = some (rleState 16) := by rfl

theorem c2ch2 : foldlOpt (x6step cpsC2 64 0) (rleState 16) (List.range' 16 8) = some (rleState 24) := by rfl

theorem c2ch3 : foldlOpt (x6step cpsC2 64 0) (rleState 24) (List.range' 24 8) = some (rleState 32) := by rfl

theorem c2ch4 : foldlOpt (x6step cpsC2 64 0) (rleState 32) (List.range' 32 8) = some (rleState 40) := by rfl

theorem c2ch5 : foldlOpt (x6step cpsC2 64 0) (rleState 40) (List.range' 40 8) = some (rleState 48) := by rfl

theorem c2ch6 : foldlOpt (x6step cpsC2 64 0) (rleState 48) (List.range' 48 8) = some (rleState 56) := by rfl

theorem c2ch7 : foldlOpt (x6step cpsC2 64 0) (rleState 56) (List.range' 56 8) = some c2x := by rfl

theorem c2hx :
    explicitPass cpsC2 cpsC2.length c2para (cuToCp cpsC2 c2para.start)
      (cuToCp cpsC2 c2para.paraEnd) (initialState demoEnv cpsC2).ts
      (initialState demoEnv cpsC2).embedLevels
      (initialState demoEnv cpsC2).isolationPairs = some c2x := by
  have h1 : explicitPass cpsC2 cpsC2.length c2para (cuToCp cpsC2 c2para.start)
      (cuToCp cpsC2 c2para.paraEnd) (initialState demoEnv cpsC2).ts
      (initialState demoEnv cpsC2).embedLevels
      (initialState demoEnv cpsC2).isolationPairs =
      foldlOpt (x6step cpsC2 64 0) (rleState 0)
        (List.range' 0 8 ++ (List.range' 8 8 ++ (List.range' 16 8 ++ (List.range' 24 8 ++
         (List.range' 32 8 ++ (List.range' 40 8 ++ (List.range' 48 8 ++ List.range' 56 8))))))) := by
    rfl
  rw [h1, foldlOpt_append, c2ch0]
  rw [Option.some_bind, foldlOpt_append, c2ch1]
  rw [Option.some_bind, foldlOpt_append, c2ch2]
  rw [Option.some_bind, foldlOpt_append, c2ch3]
  rw [Option.some_bind, foldlOpt_append, c2ch4]
  rw [Option.some_bind, foldlOpt_append, c2ch5]
  rw [Option.some_bind, foldlOpt_append, c2ch6]
  rw [Option.some_bind, c2ch7]

theorem c2hruns :
    levelRunsOf c2x.ts.charTypes c2x.embedLevels (cuToCp cpsC2 c2para.start)
      (cuToCp cpsC2 c2para.paraEnd) = c2runs := by rfl

theorem c2hseqs :
    isolatingRunSeqsOf c2x.ts.charTypes c2x.embedLevels c2runs
      c2x.isolationPairs (cuToCp cpsC2 c2para.start) (cuToCp cpsC2 c2para.paraEnd)
      c2para.level = some c2seqs := by rfl

theorem c2resCh0 : List.foldl (resolveSeq demoEnv cpsC2) c2r (c2seqChunk 0) = c2r := by rfl

theorem c2resCh1 : List.foldl (resolveSeq demoEnv cpsC2) c2r (c2seqChunk 8) = c2r := by rfl

theorem c2resCh2 : List.foldl (resolveSeq demoEnv cpsC2) c2r (c2seqChunk 16) = c2r := by rfl

theorem c2resCh3 : List.foldl (resolveSeq demoEnv cpsC2) c2r (c2seqChunk 24) = c2r := by rfl

theorem c2resCh4 : List.foldl (resolveSeq demoEnv cpsC2) c2r (c2seqChunk 32) = c2r := by rfl

theorem c2resCh5 : List.foldl (resolveSeq demoEnv cpsC2) c2r (c2seqChunk 40) = c2r := by rfl

theorem c2resCh6 : List.foldl (resolveSeq demoEnv cpsC2) c2r (c2seqChunk 48) = c2r := by rfl

theorem c2resCh7 : List.foldl (resolveSeq demoEnv cpsC2) c2r (c2seqChunk 56) = c2r := by rfl

theorem c2res :
    resolveAllSeqs demoEnv cpsC2 { ts := c2x.ts, embedLevels := c2x.embedLevels }
      c2seqs = c2r := by
  have hsplit : c2seqs =
      ((((((c2seqChunk 0 ++ c2seqChunk 8) ++ c2seqChunk 16) ++ c2seqChunk 24) ++
        c2seqChunk 32) ++ c2seqChunk 40 ++ c2seqChunk 48) ++ c2seqChunk 56) := by rfl
  show List.foldl (resolveSeq demoEnv cpsC2) c2r c2seqs = c2r
  rw [hsplit, List.foldl_append, List.foldl_append, List.foldl_append, List.foldl_append,
      List.foldl_append, List.foldl_append, List.foldl_append,
      c2resCh0, c2resCh1, c2resCh2, c2resCh3, c2resCh4, c2resCh5, c2resCh6, c2resCh7]

theorem c2imp :
    implicitPass demoEnv cpsC2 c2r.ts.charTypes (cuToCp cpsC2 c2para.start)
      (cuToCp cpsC2 c2para.paraEnd) c2para.level c2r.embedLevels = c2lv := by rfl

theorem c2hpar : paragraphsOf demoEnv cpsC2 BaseDirection.ltr = [c2para] := by rfl

theorem c2hpp :
    processParagraph demoEnv cpsC2 (initialState demoEnv cpsC2) c2para = some c2g :=
  processParagraph_eq demoEnv cpsC2 (initialState demoEnv cpsC2) c2para
    c2x c2seqs c2r c2lv c2hx c2hseqs c2res c2imp

theorem c2hfull : getEmbeddingLevelsFull? demoEnv cpsC2 BaseDirection.ltr = some c2g := by
  unfold getEmbeddingLevelsFull?
  rw [c2hpar]
  exact foldlOpt_single _ _ _ _ c2hpp

/-! ## Per-claim theorems -/

/-- C1: the spec says the isolating run sequences follow BD13 chaining via the
isolate-pair map, in particular when supplementary code points precede the
isolates.  In the source the pair map is keyed by code-unit indices (src lines
235-238) but queried with code-point indices during chaining (src lines 331,
334).  On the input emoji, LRI, a, PDI the matching PDI of the initiator at
code point 1 is code point 3, yet the pair map holds only the code-unit keys 2
and 4, so the chain from the initiator's run never happens and the PDI's run is
left as its own sequence: the sequences come out as [0,1], [2], [3] instead of
the BD13 chain [0,1,3] with [2]. -/
theorem C1_chaining_breaks_demo :
    (firstParaSeqs? demoEnv cpsC1 BaseDirection.ltr).map
      (fun l => l.map IsolSeq.seqIndices) = some [[0, 1], [2], [3]] ∧
    (firstParaX? demoEnv cpsC1 BaseDirection.ltr).map XState.isolationPairs =
      some [(4, 2), (2, 4)] ∧
    indexOfMatchingPDI (charTypes0 demoEnv cpsC1) 4 1 = some 3 :=
  ⟨by rfl, by rfl, by rfl⟩

/-- C2 counterexample: the claim bounds every entry of the levels array by
125, but on 63 RLEs followed by a European digit the digit reaches the maximal
explicit level 125 and rule I2 then lifts it to 126: entry 63 of the returned
levels array is 126. -/
theorem C2_counterexample :
    (getEmbeddingLevels? demoEnv cpsC2 BaseDirection.ltr).map
      (fun r => (r.levels.getD 63 0, r.levels.length)) = some (126, 64) := by
  have hF : (finalizeFn cpsC2 c2lv).get 63 = 126 := by rfl
  have hget : ((List.range 64).map (finalizeFn cpsC2 c2lv).get).getD 63 0 =
      (finalizeFn cpsC2 c2lv).get 63 := by rfl
  have hlen : ((List.range 64).map (finalizeFn cpsC2 c2lv).get).length = 64 := by
    simp
  unfold getEmbeddingLevels?
  rw [c2hfull]
  simp only [Option.map_some']
  have h64 : strLength cpsC2 = 64 := by rfl
  have hg : c2g.embedLevels = c2lv := rfl
  rw [h64, hg, hget, hF, hlen]

/-- C3 counterexample: the claim says every code point whose class is BN-like
(BN, RLE, LRE, RLO, LRO, PDF) ends with the level of the immediately preceding
code point.  On a Hebrew letter, a soft hyphen (class BN) and a digit, rule W5
rewrites the soft hyphen's class to EN before the implicit phase, so it takes
the I2 increment instead of the rule-5.2 copy: the final levels are 1, 2, 2 and
the BN code point's level 2 differs from its predecessor's level 1. -/
theorem C3_counterexample :
    (getEmbeddingLevels? demoEnv cpsC3 BaseDirection.ltr).map EmbedResult.levels =
      some [1, 2, 2] ∧
    demoEnv.getBidiCharType (cpsC3.getD 1 0) = TYPE_BN :=
  ⟨by rfl, by rfl⟩

/-- C5: the claim says getEmbeddingLevels is total.  On the nested-isolate
input LRI, emoji, LRI, b, PDI, PDI the pair map is keyed by code units while
the BD13 chaining searches runs by code points, so the inner search of the
chaining loop (src lines 335-341) finds no run, its condition never changes,
and the JS while loop spins forever; the embedding maps that hang to `none`. -/
theorem C5_nontermination_demo :
    getEmbeddingLevelsFull? demoEnv cpsC5 BaseDirection.ltr = none := by rfl

/-- C6: the claim says after N1/N2 no code point inside a paragraph still
carries a NEUTRAL_ISOLATE class.  On two emoji, an isolate, a paragraph
separator and a stray PDI, the run starting at the matched PDI (code point 4)
is spuriously skipped as chained-from (its start is tested against code-unit
keys), so it lands in no isolating run sequence and is never resolved: after
the full resolution its class is still TYPE_PDI, a NEUTRAL_ISOLATE class. -/
theorem C6_orphaned_run_demo :
    (getEmbeddingLevelsFull? demoEnv cpsC6 BaseDirection.ltr).map
      (fun g => g.ts.charTypes.get 4) = some TYPE_PDI ∧
    TYPE_PDI &&& NEUTRAL_ISOLATE_TYPES ≠ 0 :=
  ⟨by rfl, by decide⟩

/-- C7 counterexample: the claim says that when the 63-entry opener-stack cap
is reached the excess is silently dropped and pairs whose opener was pushed
before the cap are still identified.  On 64 opening parentheses followed by 64
closing ones the 64th opener executes the `break` at src line 562, aborting
the whole bracket scan: the scan stops and not a single pair is emitted, even
though the first 63 openers were pushed before the cap and their closers all
appear later in the (single) isolating run sequence 0..127. -/
theorem C7_counterexample :
    (firstParaSeqs? demoEnv cpsC7 BaseDirection.ltr).map
      (fun l => l.map IsolSeq.seqIndices) = some [List.range 128] ∧
    (brScan demoEnv cpsC7 (charTypes0 demoEnv cpsC7) (List.range 128)).pairs =
      [] ∧
    (brScan demoEnv cpsC7 (charTypes0 demoEnv cpsC7) (List.range 128)).stopped =
      true :=
  ⟨by rfl, by rfl, by rfl⟩

/-- C10: on the empty string, with any character table and any base direction,
getEmbeddingLevels returns an empty levels array and an empty paragraph list:
no paragraph record is created at position 0 when there are no code points. -/
theorem C10_empty_input (env : BidiEnv) (dir : BaseDirection) :
    getEmbeddingLevels? env [] dir = some { levels := [], paragraphs := [] } := by
  rfl

/-! ## Shared helper lemmas -/

theorem mem_paraRange (a b k : Nat) : k ∈ paraRange a b ↔ a ≤ k ∧ k ≤ b := by
  simp only [paraRange, List.mem_range'_1]
  omega

theorem cpLength_pos (cp : Nat) : 1 ≤ cpLength cp := by
  unfold cpLength
  split <;> omega

theorem cpToCu_succ (cps : List Nat) (j : Nat) (h : j < cps.length) :
    cpToCu cps (j + 1) = cpToCu cps j + cpLength (cps.getD j 0) := by
  unfold cpToCu
  rw [List.take_succ, List.getElem?_eq_getElem h]
  simp only [List.map_append, List.sum_append, Option.toList_some, List.map_cons,
    List.map_nil, List.sum_cons, List.sum_nil]
  rw [List.getD_eq_getElem?_getD, List.getElem?_eq_getElem h]
  simp

theorem cpToCu_le_succ (cps : List Nat) (j : Nat) :
    cpToCu cps j ≤ cpToCu cps (j + 1) := by
  by_cases h : j < cps.length
  · rw [cpToCu_succ cps j h]
    omega
  · unfold cpToCu
    rw [List.take_of_length_le (by omega), List.take_of_length_le (by omega)]

theorem cpToCu_mono (cps : List Nat) {a b : Nat} (h : a ≤ b) :
    cpToCu cps a ≤ cpToCu cps b := by
  induction b with
  | zero =>
    have ha : a = 0 := by omega
    subst ha
    exact Nat.le_refl _
  | succ b ih =>
    by_cases hab : a = b + 1
    · subst hab
      exact Nat.le_refl _
    · exact Nat.le_trans (ih (by omega)) (cpToCu_le_succ cps b)

theorem cpToCu_len (cps : List Nat) (m : Nat) (h : cps.length ≤ m) :
    cpToCu cps m = strLength cps := by
  unfold cpToCu strLength
  rw [List.take_of_length_le h]

set_option maxHeartbeats 1000000 in
/-- The per-sequence resolution never writes the level array; the source
states this as an invariant comment (src lines 391-395). -/
theorem resolveSeq_embedLevels (env : BidiEnv) (cps : List Nat) (st : RState)
    (sq : IsolSeq) : (resolveSeq env cps st sq).embedLevels = st.embedLevels := by
  unfold resolveSeq
  rfl

theorem resolveFold_embedLevels (env : BidiEnv) (cps : List Nat) :
    ∀ (seqs : List IsolSeq) (st : RState),
    (seqs.foldl (resolveSeq env cps) st).embedLevels = st.embedLevels
  | [], _ => rfl
  | sq :: rest, st => by
    simp only [List.foldl_cons]
    rw [resolveFold_embedLevels env cps rest, resolveSeq_embedLevels]

theorem resolveAllSeqs_embedLevels (env : BidiEnv) (cps : List Nat)
    (seqs : List IsolSeq) (st : RState) :
    (resolveAllSeqs env cps st seqs).embedLevels = st.embedLevels :=
  resolveFold_embedLevels env cps seqs st

theorem brScanStep_stack_le (env : BidiEnv) (cps : List Nat) (ct : NMap)
    (seq : List Nat) (st : BrScanState) (si : Nat)
    (h : st.openerStack.length ≤ 63) :
    (brScanStep env cps ct seq st si).openerStack.length ≤ 63 := by
  unfold brScanStep
  repeat' split
  all_goals simp_all
  all_goals repeat' split
  all_goals simp_all
  all_goals omega

theorem brScanFold_stack_le (env : BidiEnv) (cps : List Nat) (ct : NMap)
    (seq : List Nat) :
    ∀ (l : List Nat) (st : BrScanState), st.openerStack.length ≤ 63 →
    (l.foldl (brScanStep env cps ct seq) st).openerStack.length ≤ 63
  | [], _, h => h
  | si :: rest, st, h =>
    brScanFold_stack_le env cps ct seq rest _
      (brScanStep_stack_le env cps ct seq st si h)

/-- The L1 backward walk in closed form: position `i` is reset to the
paragraph level exactly when it lies within `steps` positions below `j` and
every position from `i` up to `j` has an original class in TRAILING. -/
theorem l1Walk_get (orig : Nat → Nat) (pl : Nat) :
    ∀ (steps : Nat) (lv : NMap) (j i : Nat),
    (l1Walk orig pl lv j steps).get i =
      if i ≤ j ∧ j < i + steps ∧
          (∀ k ∈ paraRange i j, orig k &&& TRAILING_TYPES ≠ 0)
      then pl else lv.get i
  | 0, lv, j, i => by
    simp only [l1Walk]
    rw [if_neg]
    rintro ⟨h1, h2, -⟩
    omega
  | steps + 1, lv, j, i => by
    simp only [l1Walk]
    split
    · rename_i hj
      rw [l1Walk_get orig pl steps (updf lv j pl) (j - 1) i]
      by_cases hij : i ≤ j
      · by_cases hieq : i = j
        · subst hieq
          have hL :
              (if i ≤ i - 1 ∧ i - 1 < i + steps ∧
                  (∀ k ∈ paraRange i (i - 1), orig k &&& TRAILING_TYPES ≠ 0)
               then pl else (updf lv i pl).get i) = pl := by
            split
            · rfl
            · exact updf_same lv i pl
          rw [hL, if_pos]
          refine ⟨Nat.le_refl i, by omega, ?_⟩
          intro k hk
          rcases (mem_paraRange i i k).1 hk with ⟨h1, h2⟩
          have hki : k = i := Nat.le_antisymm h2 h1
          subst hki
          exact hj
        · have hlt : i < j := Nat.lt_of_le_of_ne hij hieq
          have hT : (∀ k ∈ paraRange i (j - 1), orig k &&& TRAILING_TYPES ≠ 0) ↔
              (∀ k ∈ paraRange i j, orig k &&& TRAILING_TYPES ≠ 0) := by
            constructor
            · intro hT k hk
              rcases (mem_paraRange i j k).1 hk with ⟨h1, h2⟩
              by_cases hkj : k = j
              · subst hkj; exact hj
              · exact hT k ((mem_paraRange i (j - 1) k).2 ⟨h1, by omega⟩)
            · intro hT k hk
              rcases (mem_paraRange i (j - 1) k).1 hk with ⟨h1, h2⟩
              exact hT k ((mem_paraRange i j k).2 ⟨h1, by omega⟩)
          by_cases hC : j < i + (steps + 1) ∧
              (∀ k ∈ paraRange i j, orig k &&& TRAILING_TYPES ≠ 0)
          · rw [if_pos ⟨by omega, by omega, hT.2 hC.2⟩, if_pos ⟨hij, hC.1, hC.2⟩]
          · rw [if_neg, if_neg, updf_ne lv j pl i hieq]
            · rintro ⟨h1, h2, h3⟩
              exact hC ⟨h2, h3⟩
            · rintro ⟨h1, h2, h3⟩
              exact hC ⟨by omega, hT.1 h3⟩
      · rw [if_neg, if_neg, updf_ne lv j pl i (by omega)]
        · rintro ⟨h1, h2, -⟩
          omega
        · rintro ⟨h1, h2, -⟩
          omega
    · rename_i hj
      rw [if_neg]
      rintro ⟨h1, h2, h3⟩
      exact hj (h3 j ((mem_paraRange i j j).2 ⟨h1, Nat.le_refl j⟩))

/-- `finalizeFn` as a fold of its named loop body. -/
theorem finalizeFn_eq (cps : List Nat) (lv : NMap) :
    finalizeFn cps lv =
      (List.range cps.length).foldl (finStep cps lv) { base := fun _ => 0 } := rfl

theorem finStep_get (cps : List Nat) (lv f : NMap) (j c : Nat) :
    (finStep cps lv f j).get c =
      if c = cpToCu cps j ∨ (cpLength (cps.getD j 0) = 2 ∧ c = cpToCu cps j + 1)
      then lv.get j else f.get c := by
  unfold finStep
  split
  · rename_i h2
    simp only [List.getD_eq_getElem?_getD] at h2
    simp only [updf_get]
    by_cases hca : c = cpToCu cps j + 1
    · simp [hca, h2]
    · by_cases hcb : c = cpToCu cps j
      · simp [hca, hcb]
      · simp [hca, hcb, h2]
  · rename_i h2
    simp only [List.getD_eq_getElem?_getD] at h2
    simp only [updf_get]
    by_cases hcb : c = cpToCu cps j
    · simp [hcb]
    · simp [hcb, h2]

theorem finFold_get (cps : List Nat) (lv : NMap) (k c : Nat)
    (hk : c = cpToCu cps k ∨ (cpLength (cps.getD k 0) = 2 ∧ c = cpToCu cps k + 1)) :
    ∀ (l : List Nat) (f : NMap),
    (∀ j ∈ l, j ≠ k →
      ¬(c = cpToCu cps j ∨ (cpLength (cps.getD j 0) = 2 ∧ c = cpToCu cps j + 1))) →
    (l.foldl (finStep cps lv) f).get c = if k ∈ l then lv.get k else f.get c
  | [], f, _ => by simp
  | j :: rest, f, hnc => by
    simp only [List.foldl_cons]
    rw [finFold_get cps lv k c hk rest _
      (fun j' hj' => hnc j' (List.mem_cons_of_mem _ hj'))]
    by_cases hmem : k ∈ rest
    · rw [if_pos hmem, if_pos (List.mem_cons_of_mem _ hmem)]
    · rw [if_neg hmem, finStep_get]
      by_cases hjk : j = k
      · subst hjk
        rw [if_pos hk, if_pos (List.mem_cons_self _ _)]
      · rw [if_neg (hnc j (List.mem_cons_self _ _) hjk), if_neg]
        intro hcon
        rcases List.mem_cons.mp hcon with h | h
        · exact hjk h.symm
        · exact hmem h

/-- Distinct code points write disjoint code-unit cells in the final
mapping. -/
theorem fin_no_collision (cps : List Nat) (k j : Nat) (hk : k < cps.length)
    (hj : j < cps.length) (hjk : j ≠ k) (c : Nat)
    (hc : c = cpToCu cps k ∨ (cpLength (cps.getD k 0) = 2 ∧ c = cpToCu cps k + 1)) :
    ¬(c = cpToCu cps j ∨ (cpLength (cps.getD j 0) = 2 ∧ c = cpToCu cps j + 1)) := by
  have hsj := cpToCu_succ cps j hj
  have hsk := cpToCu_succ cps k hk
  have hpj := cpLength_pos (cps.getD j 0)
  have hpk := cpLength_pos (cps.getD k 0)
  rcases Nat.lt_or_ge j k with hlt | hge
  · have hm : cpToCu cps (j + 1) ≤ cpToCu cps k := cpToCu_mono cps (by omega)
    rcases hc with hc | ⟨h2k, hc⟩ <;> rintro (hcj | ⟨h2j, hcj⟩) <;> omega
  · have hklt : k < j := by omega
    have hm : cpToCu cps (k + 1) ≤ cpToCu cps j := cpToCu_mono cps (by omega)
    rcases hc with hc | ⟨h2k, hc⟩ <;> rintro (hcj | ⟨h2j, hcj⟩) <;> omega

theorem range_map_getD (n : Nat) (f : Nat → Nat) (c : Nat) (h : c < n) :
    ((List.range n).map f).getD c 0 = f c := by
  rw [List.getD_eq_getElem?_getD, List.getElem?_map, List.getElem?_range h]
  rfl

/-! ## Remaining per-claim theorems -/

/-- C8: throughout the weak (W1-W7) and neutral/bracket (N0-N2) resolution of
the isolating run sequences, the embedding-level array is never modified: the
state after resolving one sequence, and after resolving any list of
sequences, carries exactly the level array it started with (only the class
array is rewritten through changeCharType). -/
theorem C8_levels_frame (env : BidiEnv) (cps : List Nat) (st : RState)
    (sq : IsolSeq) (seqs : List IsolSeq) :
    (resolveSeq env cps st sq).embedLevels = st.embedLevels ∧
    (resolveAllSeqs env cps st seqs).embedLevels = st.embedLevels :=
  ⟨resolveSeq_embedLevels env cps st sq, resolveAllSeqs_embedLevels env cps seqs st⟩

/-- C7 amended: in the N0 bracket-identification scan the opening-bracket
stack indeed never holds more than 63 entries — starting from the empty
stack, any number of scan steps leaves at most 63 entries — and once the
64th opener has aborted the scan (the stopped flag is set) every further
step leaves the state untouched, so the remainder of the sequence is
silently skipped rather than processed. -/
theorem C7_amended (env : BidiEnv) (cps : List Nat) (ct : NMap)
    (seq : List Nat) (l : List Nat) :
    (l.foldl (brScanStep env cps ct seq)
      { openerStack := [], pairs := [], stopped := false }).openerStack.length ≤ 63 ∧
    ∀ (st : BrScanState) (si : Nat), st.stopped = true →
      brScanStep env cps ct seq st si = st := by
  constructor
  · exact brScanFold_stack_le env cps ct seq l _ (by simp)
  · intro st si hs
    unfold brScanStep
    simp [hs]

/-- Witness for C7 amended at a concrete scan prefix and a concrete stopped
state. -/
theorem C7_amended_witness :
    (([0, 1, 2] : List Nat).foldl
      (brScanStep demoEnv cpsC7 (charTypes0 demoEnv cpsC7) (List.range 128))
      { openerStack := [], pairs := [], stopped := false }).openerStack.length ≤ 63 ∧
    brScanStep demoEnv cpsC7 (charTypes0 demoEnv cpsC7) (List.range 128)
      { openerStack := [], pairs := [], stopped := true } 5 =
      { openerStack := [], pairs := [], stopped := true } :=
  ⟨(C7_amended demoEnv cpsC7 (charTypes0 demoEnv cpsC7) (List.range 128) [0, 1, 2]).1,
   (C7_amended demoEnv cpsC7 (charTypes0 demoEnv cpsC7) (List.range 128) []).2 _ 5 rfl⟩

/-- C4: in the final per-paragraph pass, whenever the current position is the
paragraph end or its original bidi class is S or B, the loop walks backward
from it: every contiguous position (within the paragraph) whose original
class is in TRAILING is set to the paragraph base level, and the walk stops
at the first position whose original class is not in TRAILING; positions are
otherwise left at their I1/I2-and-5.2 value. -/
theorem C4_l1_reset (env : BidiEnv) (cps : List Nat) (ct : NMap)
    (paraStartCp paraEndCp paraLevel : Nat) (lv : NMap) (cpIdx i : Nat)
    (htrig : cpIdx = paraEndCp ∨
      env.getBidiCharType (cps.getD cpIdx 0) &&& (TYPE_S ||| TYPE_B) ≠ 0) :
    (implicitStep env cps ct paraStartCp paraEndCp paraLevel lv cpIdx).get i =
      if i ≤ cpIdx ∧ cpIdx < i + (cpIdx + 1 - paraStartCp) ∧
          (∀ k ∈ paraRange i cpIdx,
            env.getBidiCharType (cps.getD k 0) &&& TRAILING_TYPES ≠ 0)
      then paraLevel
      else (i1i2With52 ct paraStartCp paraLevel lv cpIdx).get i := by
  unfold implicitStep
  split
  · exact l1Walk_get _ paraLevel _ _ _ _
  · rename_i hcon
    exact absurd htrig hcon

/-- Witness for C4 on the input a, space, paragraph separator: the trigger
holds at position 2 and the walk resets position 1 (class WS) to the base
level 0. -/
theorem C4_l1_reset_witness :
    ((2 : Nat) = 2 ∨ demoEnv.getBidiCharType (([0x61, 0x20, 0x2029] : List Nat).getD 2 0) &&&
      (TYPE_S ||| TYPE_B) ≠ 0) ∧
    (implicitStep demoEnv [0x61, 0x20, 0x2029]
        (charTypes0 demoEnv [0x61, 0x20, 0x2029]) 0 2 0 ⟨fun _ => 5, []⟩ 2).get 1 =
      if 1 ≤ 2 ∧ 2 < 1 + (2 + 1 - 0) ∧
          (∀ k ∈ paraRange 1 2,
            demoEnv.getBidiCharType (([0x61, 0x20, 0x2029] : List Nat).getD k 0) &&&
              TRAILING_TYPES ≠ 0)
      then 0 else (i1i2With52 (charTypes0 demoEnv [0x61, 0x20, 0x2029]) 0 0
        ⟨fun _ => 5, []⟩ 2).get 1 :=
  ⟨Or.inl rfl,
   C4_l1_reset demoEnv [0x61, 0x20, 0x2029] (charTypes0 demoEnv [0x61, 0x20, 0x2029])
     0 2 0 ⟨fun _ => 5, []⟩ 2 1 (Or.inl rfl)⟩

/-- C9: the two code units of each surrogate pair (each code point of UTF-16
width 2) receive equal entries in the returned levels array: both cells are
written with that code point's resolved level, and no other code point's
write collides with them. -/
theorem C9_surrogate_levels (env : BidiEnv) (cps : List Nat) (dir : BaseDirection)
    (r : EmbedResult) (hr : getEmbeddingLevels? env cps dir = some r)
    (k : Nat) (hk : k < cps.length) (hw : cpLength (cps.getD k 0) = 2) :
    r.levels.getD (cpToCu cps k) 0 = r.levels.getD (cpToCu cps k + 1) 0 := by
  unfold getEmbeddingLevels? at hr
  cases hg : getEmbeddingLevelsFull? env cps dir with
  | none => rw [hg] at hr; simp at hr
  | some g =>
    rw [hg] at hr
    simp only [Option.map_some'] at hr
    injection hr with hr'
    subst hr'
    have hsk := cpToCu_succ cps k hk
    have hlen : cpToCu cps (k + 1) ≤ strLength cps := by
      rw [← cpToCu_len cps cps.length (Nat.le_refl _)]
      exact cpToCu_mono cps (by omega)
    have h1 : cpToCu cps k < strLength cps := by omega
    have h2 : cpToCu cps k + 1 < strLength cps := by omega
    show ((List.range (strLength cps)).map (finalizeFn cps g.embedLevels).get).getD
        (cpToCu cps k) 0 = _
    rw [range_map_getD _ _ _ h1, range_map_getD _ _ _ h2, finalizeFn_eq]
    rw [finFold_get cps g.embedLevels k (cpToCu cps k) (Or.inl rfl)
      (List.range cps.length) _
      (fun j hj hjk =>
        fin_no_collision cps k j hk (List.mem_range.mp hj) hjk _ (Or.inl rfl))]
    rw [finFold_get cps g.embedLevels k (cpToCu cps k + 1) (Or.inr ⟨hw, rfl⟩)
      (List.range cps.length) _
      (fun j hj hjk =>
        fin_no_collision cps k j hk (List.mem_range.mp hj) hjk _ (Or.inr ⟨hw, rfl⟩))]
    simp [List.mem_range.mpr hk]

/-- Witness for C9 on a single surrogate-pair emoji: both code units carry
level 0. -/
theorem C9_surrogate_levels_witness :
    getEmbeddingLevels? demoEnv [0x1F600] BaseDirection.ltr =
      some { levels := [0, 0], paragraphs := [{ start := 0, paraEnd := 1, level := 0 }] } ∧
    ({ levels := [0, 0],
       paragraphs := [{ start := 0, paraEnd := 1, level := 0 }] } : EmbedResult).levels.getD
        (cpToCu [0x1F600] 0) 0 =
      ({ levels := [0, 0],
         paragraphs := [{ start := 0, paraEnd := 1, level := 0 }] } : EmbedResult).levels.getD
        (cpToCu [0x1F600] 0 + 1) 0 :=
  ⟨by rfl,
   C9_surrogate_levels demoEnv [0x1F600] BaseDirection.ltr _ (by rfl) 0 (by decide) (by rfl)⟩

/-! ## Level bounds through the whole pipeline (C2) -/

theorem popToIsolate_mem : ∀ (l l' : List Frame), popToIsolate l = some l' →
    ∀ f ∈ l', f ∈ l
  | [], _, h => by simp [popToIsolate] at h
  | f :: rest, l', h => by
    unfold popToIsolate at h
    split at h
    · injection h with h'
      subst h'
      intro g hg
      exact hg
    · intro g hg
      exact List.mem_cons_of_mem _ (popToIsolate_mem rest l' h g hg)

theorem xRLEstep_lv (st : XState) (cpIdx charType : Nat) (stackTop : Frame) :
    (xRLEstep st cpIdx charType stackTop).embedLevels =
      updf st.embedLevels cpIdx stackTop.level := by
  unfold xRLEstep
  dsimp only
  repeat' split
  all_goals rfl

theorem xRLEstep_stack (st : XState) (cpIdx charType : Nat) (stackTop : Frame) :
    (xRLEstep st cpIdx charType stackTop).statusStack = st.statusStack ∨
    ∃ fr : Frame, fr.level ≤ 125 ∧
      (xRLEstep st cpIdx charType stackTop).statusStack = fr :: st.statusStack := by
  unfold xRLEstep
  dsimp only
  repeat' split
  all_goals
    first
    | (left; rfl)
    | (right
       refine ⟨_, ?_, rfl⟩
       simp_all [MAX_DEPTH])

theorem xRLOstep_lv (st : XState) (cpIdx charType : Nat) (stackTop : Frame) :
    (xRLOstep st cpIdx charType stackTop).embedLevels =
      updf st.embedLevels cpIdx stackTop.level := by
  unfold xRLOstep
  dsimp only
  repeat' split
  all_goals rfl

theorem xRLOstep_stack (st : XState) (cpIdx charType : Nat) (stackTop : Frame) :
    (xRLOstep st cpIdx charType stackTop).statusStack = st.statusStack ∨
    ∃ fr : Frame, fr.level ≤ 125 ∧
      (xRLOstep st cpIdx charType stackTop).statusStack = fr :: st.statusStack := by
  unfold xRLOstep
  dsimp only
  repeat' split
  all_goals
    first
    | (left; rfl)
    | (right
       refine ⟨_, ?_, rfl⟩
       simp_all [MAX_DEPTH])

theorem xIsoStep_lv (n : Nat) (st : XState) (cpIdx charType : Nat)
    (stackTop : Frame) :
    (xIsoStep n st cpIdx charType stackTop).embedLevels =
      updf st.embedLevels cpIdx stackTop.level := by
  unfold xIsoStep
  dsimp only
  repeat' split
  all_goals rfl

theorem xIsoStep_stack (n : Nat) (st : XState) (cpIdx charType : Nat)
    (stackTop : Frame) :
    (xIsoStep n st cpIdx charType stackTop).statusStack = st.statusStack ∨
    ∃ fr : Frame, fr.level ≤ 125 ∧
      (xIsoStep n st cpIdx charType stackTop).statusStack = fr :: st.statusStack := by
  unfold xIsoStep
  dsimp only
  repeat' split
  all_goals
    first
    | (left; rfl)
    | (right
       refine ⟨_, ?_, rfl⟩
       simp_all [MAX_DEPTH])

theorem xDefStep_lv (st : XState) (cpIdx charType : Nat) (stackTop : Frame) :
    (xDefStep st cpIdx charType stackTop).embedLevels =
      updf st.embedLevels cpIdx stackTop.level := by
  unfold xDefStep
  dsimp only

theorem xDefStep_stack (st : XState) (cpIdx charType : Nat) (stackTop : Frame) :
    (xDefStep st cpIdx charType stackTop).statusStack = st.statusStack := by
  unfold xDefStep
  dsimp only

theorem head?_mem {α : Type} {l : List α} {a : α} (h : l.head? = some a) :
    a ∈ l := by
  cases l with
  | nil => simp at h
  | cons x xs =>
    simp only [List.head?_cons, Option.some.injEq] at h
    subst h
    exact List.mem_cons_self _ _

theorem tail_mem {α : Type} {l : List α} {a : α} (h : a ∈ l.tail) : a ∈ l := by
  cases l with
  | nil => simp at h
  | cons x xs => exact List.mem_cons_of_mem _ h

theorem xPDF_final (st0 base : XState) (cpIdx : Nat) (st' : XState)
    (hsub : ∀ f ∈ st0.statusStack, f ∈ base.statusStack)
    (hlv : st0.embedLevels = base.embedLevels)
    (hstack : ∀ f ∈ base.statusStack, f.level ≤ 125)
    (h : (match st0.statusStack.head? with
          | none => none
          | some stackTop2 =>
            some { st0 with
              embedLevels := updf st0.embedLevels cpIdx stackTop2.level }) =
        some st') :
    (∀ f ∈ st'.statusStack, f.level ≤ 125) ∧
    st'.embedLevels.get cpIdx ≤ 125 ∧
    (∀ j, j ≠ cpIdx → st'.embedLevels.get j = base.embedLevels.get j) := by
  cases hh : st0.statusStack.head? with
  | none => rw [hh] at h; exact Option.noConfusion h
  | some t2 =>
    rw [hh] at h
    injection h with he
    subst he
    refine ⟨fun f hf => hstack f (hsub f hf), ?_, ?_⟩
    · have hb := hstack t2 (hsub t2 (head?_mem hh))
      simp [hlv, updf_same]
      omega
    · intro j hj
      simp [hlv, updf_ne _ _ _ _ hj]

theorem xPDFstep_inv (st : XState) (cpIdx : Nat) (stackTop : Frame) (st' : XState)
    (hstack : ∀ f ∈ st.statusStack, f.level ≤ 125)
    (h : xPDFstep st cpIdx stackTop = some st') :
    (∀ f ∈ st'.statusStack, f.level ≤ 125) ∧
    st'.embedLevels.get cpIdx ≤ 125 ∧
    (∀ j, j ≠ cpIdx → st'.embedLevels.get j = st.embedLevels.get j) := by
  unfold xPDFstep at h
  dsimp only at h
  by_cases h1 : st.overflowIsolateCount = 0
  · rw [if_pos h1] at h
    by_cases h2 : st.overflowEmbeddingCount > 0
    · rw [if_pos h2] at h
      exact xPDF_final
        { st with overflowEmbeddingCount := st.overflowEmbeddingCount - 1 }
        st cpIdx st' (fun f hf => hf) rfl hstack h
    · rw [if_neg h2] at h
      by_cases h3 : ¬stackTop.isolate = true ∧ st.statusStack.length > 1
      · rw [if_pos h3] at h
        exact xPDF_final { st with statusStack := st.statusStack.tail }
          st cpIdx st' (fun f hf => tail_mem hf) rfl hstack h
      · rw [if_neg h3] at h
        exact xPDF_final st st cpIdx st' (fun f hf => hf) rfl hstack h
  · rw [if_neg h1] at h
    exact xPDF_final st st cpIdx st' (fun f hf => hf) rfl hstack h

theorem xPDI_final (st1 base : XState) (cpIdx : Nat) (st' : XState)
    (hsub : ∀ f ∈ st1.statusStack, f ∈ base.statusStack)
    (hlv : st1.embedLevels = base.embedLevels)
    (hstack : ∀ f ∈ base.statusStack, f.level ≤ 125)
    (h : (match st1.statusStack.head? with
          | none => none
          | some stackTop2 =>
            some { st1 with
              ts :=
                if stackTop2.override ≠ 0 then
                  changeCharType st1.ts cpIdx stackTop2.override
                else st1.ts,
              embedLevels := updf st1.embedLevels cpIdx stackTop2.level }) =
        some st') :
    (∀ f ∈ st'.statusStack, f.level ≤ 125) ∧
    st'.embedLevels.get cpIdx ≤ 125 ∧
    (∀ j, j ≠ cpIdx → st'.embedLevels.get j = base.embedLevels.get j) := by
  cases hh : st1.statusStack.head? with
  | none => rw [hh] at h; exact Option.noConfusion h
  | some t2 =>
    rw [hh] at h
    injection h with he
    subst he
    refine ⟨fun f hf => hstack f (hsub f hf), ?_, ?_⟩
    · have hb := hstack t2 (hsub t2 (head?_mem hh))
      simp [hlv, updf_same]
      omega
    · intro j hj
      simp [hlv, updf_ne _ _ _ _ hj]

theorem xPDIstep_inv (cps : List Nat) (st : XState) (cpIdx : Nat) (st' : XState)
    (hstack : ∀ f ∈ st.statusStack, f.level ≤ 125)
    (h : xPDIstep cps st cpIdx = some st') :
    (∀ f ∈ st'.statusStack, f.level ≤ 125) ∧
    st'.embedLevels.get cpIdx ≤ 125 ∧
    (∀ j, j ≠ cpIdx → st'.embedLevels.get j = st.embedLevels.get j) := by
  unfold xPDIstep at h
  dsimp only at h
  by_cases hA : st.overflowIsolateCount > 0
  · rw [if_pos hA] at h
    exact xPDI_final
      { st with overflowIsolateCount := st.overflowIsolateCount - 1 }
      st cpIdx st' (fun f hf => hf) rfl hstack h
  · rw [if_neg hA] at h
    by_cases hB : st.validIsolateCount > 0
    · rw [if_pos hB] at h
      cases hpop : popToIsolate st.statusStack with
      | none =>
        rw [hpop] at h
        exact Option.noConfusion h
      | some popped =>
        rw [hpop] at h
        dsimp only at h
        cases hph : popped.head? with
        | none =>
          rw [hph] at h
          exact Option.noConfusion h
        | some isoFrame =>
          rw [hph] at h
          exact xPDI_final
            { st with
              overflowEmbeddingCount := 0,
              statusStack := popped.tail,
              validIsolateCount := st.validIsolateCount - 1,
              isolationPairs :=
                match isoFrame.isolInitIndex with
                | none => st.isolationPairs
                | some isolInitCpIdx =>
                  (cpToCu cps cpIdx, cpToCu cps isolInitCpIdx) ::
                    (cpToCu cps isolInitCpIdx, cpToCu cps cpIdx) ::
                      st.isolationPairs }
            st cpIdx st'
            (fun f hf => popToIsolate_mem _ _ hpop f (tail_mem hf))
            rfl hstack h
    · rw [if_neg hB] at h
      exact xPDI_final st st cpIdx st' (fun f hf => hf) rfl hstack h

theorem total_branch_inv (res stC base : XState) (cpIdx : Nat) (top : Frame)
    (hlv : res.embedLevels = updf stC.embedLevels cpIdx top.level)
    (hstk : res.statusStack = stC.statusStack ∨
      ∃ fr : Frame, fr.level ≤ 125 ∧ res.statusStack = fr :: stC.statusStack)
    (hCs : stC.statusStack = base.statusStack)
    (hCl : stC.embedLevels = base.embedLevels)
    (hstack : ∀ f ∈ base.statusStack, f.level ≤ 125)
    (htop : top.level ≤ 125) :
    (∀ f ∈ res.statusStack, f.level ≤ 125) ∧
    res.embedLevels.get cpIdx ≤ 125 ∧
    (∀ j, j ≠ cpIdx → res.embedLevels.get j = base.embedLevels.get j) := by
  refine ⟨?_, ?_, ?_⟩
  · intro f hf
    rcases hstk with hcase | ⟨fr, hfr, hcase⟩
    · rw [hcase, hCs] at hf
      exact hstack f hf
    · rw [hcase] at hf
      rcases List.mem_cons.mp hf with hf | hf
      · subst hf
        exact hfr
      · rw [hCs] at hf
        exact hstack f hf
  · rw [hlv, updf_same]
    exact htop
  · intro j hj
    rw [hlv, updf_ne _ _ _ _ hj, hCl]

theorem x6step_inv (cps : List Nat) (n paraLevel : Nat) (st : XState)
    (cpIdx : Nat) (st' : XState)
    (hpl : paraLevel ≤ 125)
    (hstack : ∀ f ∈ st.statusStack, f.level ≤ 125)
    (h : x6step cps n paraLevel st cpIdx = some st') :
    (∀ f ∈ st'.statusStack, f.level ≤ 125) ∧
    st'.embedLevels.get cpIdx ≤ 125 ∧
    (∀ j, j ≠ cpIdx → st'.embedLevels.get j = st.embedLevels.get j) := by
  unfold x6step at h
  cases hs : st.statusStack with
  | nil =>
    rw [hs] at h
    dsimp only at h
    exact Option.noConfusion h
  | cons top rest =>
    rw [hs] at h
    simp only [List.head?_cons] at h
    have htop : top.level ≤ 125 := hstack top (by rw [hs]; exact List.mem_cons_self _ _)
    repeat' split at h
    all_goals first
    | exact absurd h (fun hcon => Option.noConfusion hcon)
    | ( -- PDI branch
       refine ?_
       have hc := xPDIstep_inv cps _ cpIdx st'
         (by intro f hf; exact hstack f (by rw [hs]; exact hf)) h
       exact ⟨hc.1, hc.2.1, hc.2.2⟩)
    | ( -- PDF branch
       refine ?_
       have hc := xPDFstep_inv _ cpIdx top st'
         (by intro f hf; exact hstack f (by rw [hs]; exact hf)) h
       exact ⟨hc.1, hc.2.1, hc.2.2⟩)
    | (injection h with he
       subst he
       first
       | exact total_branch_inv _ _ st cpIdx top (xRLEstep_lv _ _ _ _)
           (xRLEstep_stack _ _ _ _) hs.symm rfl hstack htop
       | exact total_branch_inv _ _ st cpIdx top (xRLOstep_lv _ _ _ _)
           (xRLOstep_stack _ _ _ _) hs.symm rfl hstack htop
       | exact total_branch_inv _ _ st cpIdx top (xIsoStep_lv _ _ _ _ _)
           (xIsoStep_stack _ _ _ _ _) hs.symm rfl hstack htop
       | exact total_branch_inv _ _ st cpIdx top (xDefStep_lv _ _ _ _)
           (Or.inl (xDefStep_stack _ _ _ _)) hs.symm rfl hstack htop
       | ( -- X8 branch
          refine ⟨?_, ?_, ?_⟩
          · intro f hf
            exact hstack f (by rw [hs]; exact hf)
          · rw [updf_same]
            exact hpl
          · intro j hj
            rw [updf_ne _ _ _ _ hj]))

theorem xFold_inv (cps : List Nat) (n paraLevel : Nat) (hpl : paraLevel ≤ 125) :
    ∀ (l : List Nat) (st st' : XState),
    (∀ f ∈ st.statusStack, f.level ≤ 125) →
    foldlOpt (x6step cps n paraLevel) st l = some st' →
    (∀ f ∈ st'.statusStack, f.level ≤ 125) ∧
    (∀ j ∈ l, st'.embedLevels.get j ≤ 125) ∧
    (∀ j, j ∉ l → st'.embedLevels.get j = st.embedLevels.get j)
  | [], st, st', hstack, h => by
    simp only [foldlOpt] at h
    injection h with he
    subst he
    exact ⟨hstack, by simp, fun j _ => rfl⟩
  | a :: rest, st, st', hstack, h => by
    simp only [foldlOpt] at h
    cases hstep : x6step cps n paraLevel st a with
    | none => rw [hstep] at h; exact Option.noConfusion h
    | some s1 =>
      rw [hstep] at h
      have hinv := x6step_inv cps n paraLevel st a s1 hpl hstack hstep
      have hrec := xFold_inv cps n paraLevel hpl rest s1 st' hinv.1 h
      refine ⟨hrec.1, ?_, ?_⟩
      · intro j hj
        rcases List.mem_cons.mp hj with hj | hj
        · subst hj
          by_cases hjr : j ∈ rest
          · exact hrec.2.1 j hjr
          · rw [hrec.2.2 j hjr]
            exact hinv.2.1
        · exact hrec.2.1 j hj
      · intro j hj
        have hja : j ≠ a := fun hcon => hj (hcon ▸ List.mem_cons_self _ _)
        have hjr : j ∉ rest := fun hcon => hj (List.mem_cons_of_mem _ hcon)
        rw [hrec.2.2 j hjr, hinv.2.2 j hja]

theorem explicitPass_inv (cps : List Nat) (n : Nat) (para : Para)
    (a b : Nat) (ts0 : TypeState) (lv0 : NMap) (pairs0 : List (Nat × Nat))
    (x : XState) (hpl : para.level ≤ 125)
    (hx : explicitPass cps n para a b ts0 lv0 pairs0 = some x) :
    (∀ j ∈ paraRange a b, x.embedLevels.get j ≤ 125) ∧
    (∀ j, j ∉ paraRange a b → x.embedLevels.get j = lv0.get j) := by
  unfold explicitPass at hx
  have hres := xFold_inv cps n para.level hpl (paraRange a b) _ x
    (by
      intro f hf
      simp only [List.mem_singleton] at hf
      subst hf
      exact hpl)
    hx
  exact ⟨hres.2.1, hres.2.2⟩

theorem i1i2_get_ne (ct : NMap) (a pl : Nat) (lv : NMap) (i j : Nat)
    (hj : j ≠ i) :
    (i1i2With52 ct a pl lv i).get j = lv.get j := by
  unfold i1i2With52
  dsimp only
  repeat' split
  all_goals first
  | rfl
  | simp [updf_get, hj]

theorem i1i2_bound (ct : NMap) (a pl : Nat) (lv : NMap) (i : Nat)
    (hall : ∀ j, lv.get j ≤ 126) (hcur : lv.get i ≤ 125) (hpl : pl ≤ 125) :
    ∀ j, (i1i2With52 ct a pl lv i).get j ≤ 126 := by
  intro j
  have ha1 := hall (i - 1)
  have haj := hall j
  unfold i1i2With52
  dsimp only
  repeat' split
  all_goals try simp only [updf_get]
  all_goals repeat' split
  all_goals omega

theorem implicitStep_get_gt (env : BidiEnv) (cps : List Nat) (ct : NMap)
    (a b pl : Nat) (lv : NMap) (i j : Nat) (hj : i < j) :
    (implicitStep env cps ct a b pl lv i).get j = lv.get j := by
  unfold implicitStep
  split
  · rw [l1Walk_get, if_neg (by rintro ⟨h1, -, -⟩; omega)]
    exact i1i2_get_ne ct a pl lv i j (by omega)
  · exact i1i2_get_ne ct a pl lv i j (by omega)

theorem implicitStep_bound (env : BidiEnv) (cps : List Nat) (ct : NMap)
    (a b pl : Nat) (lv : NMap) (i : Nat)
    (hall : ∀ j, lv.get j ≤ 126) (hcur : lv.get i ≤ 125) (hpl : pl ≤ 125) :
    ∀ j, (implicitStep env cps ct a b pl lv i).get j ≤ 126 := by
  intro j
  unfold implicitStep
  split
  · rw [l1Walk_get]
    split
    · omega
    · exact i1i2_bound ct a pl lv i hall hcur hpl j
  · exact i1i2_bound ct a pl lv i hall hcur hpl j

theorem implicitFold_bound (env : BidiEnv) (cps : List Nat) (ct : NMap)
    (a' b pl : Nat) (hpl : pl ≤ 125) :
    ∀ (m a : Nat) (lv : NMap),
    (∀ j, lv.get j ≤ 126) →
    (∀ j, a ≤ j → j < a + m → lv.get j ≤ 125) →
    ∀ j, ((List.range' a m).foldl (implicitStep env cps ct a' b pl) lv).get j ≤ 126
  | 0, a, lv, hall, _ => by
    intro j
    exact hall j
  | m + 1, a, lv, hall, hseg => by
    intro j
    show ((List.range' (a + 1) m).foldl (implicitStep env cps ct a' b pl)
      (implicitStep env cps ct a' b pl lv a)).get j ≤ 126
    apply implicitFold_bound env cps ct a' b pl hpl m (a + 1)
    · exact implicitStep_bound env cps ct a' b pl lv a hall
        (hseg a (Nat.le_refl a) (by omega)) hpl
    · intro j' hj1 hj2
      rw [implicitStep_get_gt env cps ct a' b pl lv a j' (by omega)]
      exact hseg j' (by omega) (by omega)

theorem autoAux_le_one (ct : NMap) (n : Nat) (isFSI : Bool) :
    ∀ (fuel i : Nat), determineAutoEmbedLevelAux ct n isFSI i fuel ≤ 1
  | 0, i => by
    simp [determineAutoEmbedLevelAux]
  | fuel + 1, i => by
    unfold determineAutoEmbedLevelAux
    dsimp only
    repeat' split
    all_goals first
    | omega
    | apply autoAux_le_one

theorem paraLevelOf_le_one (ct : NMap) (n : Nat) (dir : BaseDirection)
    (i : Nat) : paraLevelOf ct n dir i ≤ 1 := by
  cases dir with
  | ltr => simp [paraLevelOf]
  | rtl => simp [paraLevelOf]
  | auto =>
    simp only [paraLevelOf, determineAutoEmbedLevel]
    apply autoAux_le_one

theorem splitStep_le (ct : NMap) (cps : List Nat) (sl : Nat)
    (levelOf : Nat → Nat) (hl : ∀ i, levelOf i ≤ 1)
    (st : List Para × Option Para) (i : Nat)
    (h1 : ∀ p ∈ st.1, p.level ≤ 1) (h2 : ∀ p, st.2 = some p → p.level ≤ 1) :
    (∀ p ∈ (splitStep ct cps sl levelOf st i).1, p.level ≤ 1) ∧
    (∀ p, (splitStep ct cps sl levelOf st i).2 = some p → p.level ≤ 1) := by
  unfold splitStep
  dsimp only
  cases hcur : st.2 with
  | none =>
    dsimp only
    split
    · constructor
      · intro p hp
        rcases List.mem_append.mp hp with hp | hp
        · exact h1 p hp
        · simp only [List.mem_singleton] at hp
          subst hp
          exact hl i
      · intro p hp
        exact Option.noConfusion hp
    · refine ⟨h1, ?_⟩
      intro p hp
      injection hp with he
      subst he
      exact hl i
  | some q =>
    dsimp only
    split
    · constructor
      · intro p hp
        rcases List.mem_append.mp hp with hp | hp
        · exact h1 p hp
        · simp only [List.mem_singleton] at hp
          subst hp
          exact h2 q hcur
      · intro p hp
        exact Option.noConfusion hp
    · refine ⟨h1, ?_⟩
      intro p hp
      injection hp with he
      subst he
      exact h2 q hcur

theorem splitFold_le (ct : NMap) (cps : List Nat) (sl : Nat)
    (levelOf : Nat → Nat) (hl : ∀ i, levelOf i ≤ 1) :
    ∀ (l : List Nat) (st : List Para × Option Para),
    (∀ p ∈ st.1, p.level ≤ 1) → (∀ p, st.2 = some p → p.level ≤ 1) →
    (∀ p ∈ (l.foldl (splitStep ct cps sl levelOf) st).1, p.level ≤ 1) ∧
    (∀ p, (l.foldl (splitStep ct cps sl levelOf) st).2 = some p → p.level ≤ 1)
  | [], st, h1, h2 => ⟨h1, h2⟩
  | a :: rest, st, h1, h2 => by
    simp only [List.foldl_cons]
    have hstep := splitStep_le ct cps sl levelOf hl st a h1 h2
    exact splitFold_le ct cps sl levelOf hl rest _ hstep.1 hstep.2

theorem paragraphsOf_level_le (env : BidiEnv) (cps : List Nat)
    (dir : BaseDirection) :
    ∀ p ∈ paragraphsOf env cps dir, p.level ≤ 1 := by
  intro p hp
  unfold paragraphsOf at hp
  have hres := splitFold_le (charTypes0 env cps) cps (strLength cps)
    (paraLevelOf (charTypes0 env cps) cps.length dir)
    (paraLevelOf_le_one _ _ _)
    (List.range cps.length) ([], none) (by simp) (by simp)
  dsimp only at hp
  split at hp
  · exact hres.1 p hp
  · rcases List.mem_append.mp hp with hp | hp
    · exact hres.1 p hp
    · simp only [List.mem_singleton] at hp
      subst hp
      apply hres.2
      assumption

theorem processParagraph_lv_bound (env : BidiEnv) (cps : List Nat) (g : GState)
    (para : Para) (g' : GState) (hpl : para.level ≤ 1)
    (hall : ∀ j, g.embedLevels.get j ≤ 126)
    (h : processParagraph env cps g para = some g') :
    ∀ j, g'.embedLevels.get j ≤ 126 := by
  simp only [processParagraph] at h
  cases hx : explicitPass cps cps.length para (cuToCp cps para.start)
      (cuToCp cps para.paraEnd) g.ts g.embedLevels g.isolationPairs with
  | none => rw [hx] at h; exact Option.noConfusion h
  | some x =>
    rw [hx] at h
    simp only [Option.some_bind] at h
    cases hseqs : isolatingRunSeqsOf x.ts.charTypes x.embedLevels
        (levelRunsOf x.ts.charTypes x.embedLevels (cuToCp cps para.start)
          (cuToCp cps para.paraEnd))
        x.isolationPairs (cuToCp cps para.start) (cuToCp cps para.paraEnd)
        para.level with
    | none => rw [hseqs] at h; exact Option.noConfusion h
    | some seqs =>
      rw [hseqs] at h
      simp only [Option.some_bind] at h
      injection h with he
      subst he
      intro j
      dsimp only
      have hx2 := explicitPass_inv cps cps.length para (cuToCp cps para.start)
        (cuToCp cps para.paraEnd) g.ts g.embedLevels g.isolationPairs x
        (by omega) hx
      have hrlv := resolveAllSeqs_embedLevels env cps seqs
        { ts := x.ts, embedLevels := x.embedLevels }
      unfold implicitPass
      rw [hrlv]
      have hmain := implicitFold_bound env cps
        (resolveAllSeqs env cps { ts := x.ts, embedLevels := x.embedLevels }
          seqs).ts.charTypes
        (cuToCp cps para.start) (cuToCp cps para.paraEnd) para.level (by omega)
        (cuToCp cps para.paraEnd + 1 - cuToCp cps para.start)
        (cuToCp cps para.start) x.embedLevels
        (by
          intro j'
          by_cases hj' : j' ∈ paraRange (cuToCp cps para.start) (cuToCp cps para.paraEnd)
          · exact Nat.le_trans (hx2.1 j' hj') (by omega)
          · rw [hx2.2 j' hj']
            exact hall j')
        (by
          intro j' hj1 hj2
          exact hx2.1 j' ((mem_paraRange _ _ _).2 ⟨hj1, by omega⟩))
        j
      exact hmain

theorem ppFold_bound (env : BidiEnv) (cps : List Nat) :
    ∀ (ps : List Para) (g g' : GState),
    (∀ p ∈ ps, p.level ≤ 1) → (∀ j, g.embedLevels.get j ≤ 126) →
    foldlOpt (processParagraph env cps) g ps = some g' →
    ∀ j, g'.embedLevels.get j ≤ 126
  | [], g, g', _, hall, h => by
    simp only [foldlOpt] at h
    injection h with he
    subst he
    exact hall
  | p :: rest, g, g', hps, hall, h => by
    simp only [foldlOpt] at h
    cases hstep : processParagraph env cps g p with
    | none => rw [hstep] at h; exact Option.noConfusion h
    | some g1 =>
      rw [hstep] at h
      exact ppFold_bound env cps rest g1 g'
        (fun q hq => hps q (List.mem_cons_of_mem _ hq))
        (processParagraph_lv_bound env cps g p g1
          (hps p (List.mem_cons_self _ _)) hall hstep)
        h

theorem full_lv_bound (env : BidiEnv) (cps : List Nat) (dir : BaseDirection)
    (g : GState) (h : getEmbeddingLevelsFull? env cps dir = some g) :
    ∀ j, g.embedLevels.get j ≤ 126 := by
  unfold getEmbeddingLevelsFull? at h
  exact ppFold_bound env cps (paragraphsOf env cps dir) (initialState env cps) g
    (paragraphsOf_level_le env cps dir)
    (by intro j; simp [initialState, NMap.get])
    h

theorem finFold_bound (cps : List Nat) (lv : NMap)
    (hall : ∀ j, lv.get j ≤ 126) :
    ∀ (l : List Nat) (f : NMap), (∀ c, f.get c ≤ 126) →
    ∀ c, (l.foldl (finStep cps lv) f).get c ≤ 126
  | [], f, hf, c => hf c
  | a :: rest, f, hf, c => by
    simp only [List.foldl_cons]
    apply finFold_bound cps lv hall rest
    intro c'
    rw [finStep_get]
    split
    · exact hall a
    · exact hf c'

/-! ## The BN-like level copy of the implicit pass (C3) -/

theorem bn_class_facts :
    ∀ t ∈ bidiClassList, t &&& BN_LIKE_TYPES ≠ 0 →
      t &&& TRAILING_TYPES = 0 ∧ t &&& (TYPE_S ||| TYPE_B) = 0 ∧
      t &&& (TYPE_L ||| TYPE_EN ||| TYPE_AN) = 0 ∧ t &&& TYPE_R = 0 ∧
      t &&& (TYPE_AN ||| TYPE_EN) = 0 := by
  decide

theorem i1i2_bn (ct : NMap) (a pl : Nat) (lv : NMap) (cpIdx : Nat)
    (hclass : ct.get cpIdx ∈ bidiClassList)
    (hbn : ct.get cpIdx &&& BN_LIKE_TYPES ≠ 0) :
    i1i2With52 ct a pl lv cpIdx =
      updf lv cpIdx (if cpIdx = a then pl else lv.get (cpIdx - 1)) := by
  have hf := bn_class_facts (ct.get cpIdx) hclass hbn
  have h1 : ¬ ct.get cpIdx &&& (TYPE_L ||| TYPE_EN ||| TYPE_AN) ≠ 0 :=
    fun hc => hc hf.2.2.1
  have h2 : ¬ ct.get cpIdx &&& TYPE_R ≠ 0 := fun hc => hc hf.2.2.2.1
  have h3 : ¬ ct.get cpIdx &&& (TYPE_AN ||| TYPE_EN) ≠ 0 :=
    fun hc => hc hf.2.2.2.2
  unfold i1i2With52
  dsimp only
  rw [if_neg h1, if_neg h2, if_neg h3, ite_self, if_pos hbn]

theorem implicitStep_get_skip (env : BidiEnv) (cps : List Nat) (ct : NMap)
    (a b pl : Nat) (lv : NMap) (p q m : Nat)
    (hqm : q ≤ m) (hmp : m ≤ p) (hne : q ≠ p)
    (hm : env.getBidiCharType (cps.getD m 0) &&& TRAILING_TYPES = 0) :
    (implicitStep env cps ct a b pl lv p).get q = lv.get q := by
  unfold implicitStep
  dsimp only
  split
  · rw [l1Walk_get]
    have hA : ¬ (q ≤ p ∧ p < q + (p + 1 - a) ∧
        ∀ k ∈ paraRange q p,
          env.getBidiCharType (cps.getD k 0) &&& TRAILING_TYPES ≠ 0) := by
      rintro ⟨-, -, h3⟩
      exact h3 m ((mem_paraRange _ _ _).2 ⟨hqm, hmp⟩) hm
    rw [if_neg hA]
    exact i1i2_get_ne ct a pl lv p q hne
  · exact i1i2_get_ne ct a pl lv p q hne

theorem implicitStep_bn_estab (env : BidiEnv) (cps : List Nat) (ct : NMap)
    (a b pl : Nat) (lv : NMap) (cpIdx : Nat)
    (ha : a ≤ cpIdx)
    (hclass : ct.get cpIdx ∈ bidiClassList)
    (hbn : ct.get cpIdx &&& BN_LIKE_TYPES ≠ 0)
    (horig : env.getBidiCharType (cps.getD cpIdx 0) = ct.get cpIdx) :
    (implicitStep env cps ct a b pl lv cpIdx).get cpIdx =
      if cpIdx = a then pl
      else (implicitStep env cps ct a b pl lv cpIdx).get (cpIdx - 1) := by
  have hf := bn_class_facts (ct.get cpIdx) hclass hbn
  have htr : env.getBidiCharType (cps.getD cpIdx 0) &&& TRAILING_TYPES = 0 := by
    rw [horig]
    exact hf.1
  unfold implicitStep
  dsimp only
  rw [i1i2_bn ct a pl lv cpIdx hclass hbn]
  split
  · rw [l1Walk_get, l1Walk_get]
    have hA : ¬ (cpIdx ≤ cpIdx ∧ cpIdx < cpIdx + (cpIdx + 1 - a) ∧
        ∀ k ∈ paraRange cpIdx cpIdx,
          env.getBidiCharType (cps.getD k 0) &&& TRAILING_TYPES ≠ 0) := by
      rintro ⟨-, -, h3⟩
      exact h3 cpIdx ((mem_paraRange _ _ _).2 ⟨Nat.le_refl _, Nat.le_refl _⟩) htr
    have hB : ¬ (cpIdx - 1 ≤ cpIdx ∧ cpIdx < cpIdx - 1 + (cpIdx + 1 - a) ∧
        ∀ k ∈ paraRange (cpIdx - 1) cpIdx,
          env.getBidiCharType (cps.getD k 0) &&& TRAILING_TYPES ≠ 0) := by
      rintro ⟨-, -, h3⟩
      exact h3 cpIdx ((mem_paraRange _ _ _).2 ⟨Nat.sub_le _ _, Nat.le_refl _⟩) htr
    rw [if_neg hA, if_neg hB, updf_same]
    split
    · rfl
    · rename_i hne
      rw [updf_ne _ _ _ _ (by omega)]
  · rw [updf_same]
    split
    · rfl
    · rename_i hne
      rw [updf_ne _ _ _ _ (by omega)]

theorem implicit_bn_fold (env : BidiEnv) (cps : List Nat) (ct : NMap)
    (a b pl : Nat) (cpIdx : Nat)
    (ha : a ≤ cpIdx)
    (hclass : ct.get cpIdx ∈ bidiClassList)
    (hbn : ct.get cpIdx &&& BN_LIKE_TYPES ≠ 0)
    (horig : env.getBidiCharType (cps.getD cpIdx 0) = ct.get cpIdx) :
    ∀ (l : List Nat) (lv : NMap), (∀ x ∈ l, cpIdx < x) →
    lv.get cpIdx = (if cpIdx = a then pl else lv.get (cpIdx - 1)) →
    (l.foldl (implicitStep env cps ct a b pl) lv).get cpIdx =
      if cpIdx = a then pl
      else (l.foldl (implicitStep env cps ct a b pl) lv).get (cpIdx - 1)
  | [], lv, _, hrel => hrel
  | x :: rest, lv, hmem, hrel => by
    simp only [List.foldl_cons]
    have hx := hmem x (List.mem_cons_self _ _)
    have htr : env.getBidiCharType (cps.getD cpIdx 0) &&& TRAILING_TYPES = 0 := by
      rw [horig]
      exact (bn_class_facts (ct.get cpIdx) hclass hbn).1
    have hKa := implicitStep_get_skip env cps ct a b pl lv x cpIdx cpIdx
      (Nat.le_refl _) (by omega) (by omega) htr
    have hKb := implicitStep_get_skip env cps ct a b pl lv x (cpIdx - 1) cpIdx
      (Nat.sub_le _ _) (by omega) (by omega) htr
    exact implicit_bn_fold env cps ct a b pl cpIdx ha hclass hbn horig rest
      (implicitStep env cps ct a b pl lv x)
      (fun y hy => hmem y (List.mem_cons_of_mem _ hy))
      (by rw [hKa, hKb]; exact hrel)

theorem paraRange_split (a b c : Nat) (h1 : a ≤ c) (h2 : c ≤ b) :
    paraRange a b = List.range' a (c - a) ++ c :: paraRange (c + 1) b := by
  unfold paraRange
  have e1 : b + 1 - (c + 1) = b - c := by omega
  rw [e1]
  have e2 : (c :: List.range' (c + 1) (b - c) : List Nat) =
      List.range' c (b - c + 1) := rfl
  rw [e2]
  have h3 := List.range'_append a (c - a) (b - c + 1) 1
  rw [show a + 1 * (c - a) = c from by omega,
    show b - c + 1 + (c - a) = b + 1 - a from by omega] at h3
  exact h3.symm

/-- C3 amended: in the implicit-levels pass of a paragraph, every code point
whose class in the class array `ct` consumed by that pass is still BN-like
(BN, RLE, LRE, RLO, LRO or PDF) - such a class necessarily equals the
character's original table class, since no resolution rule ever writes a
BN-like class - receives the level of the immediately preceding code point of
the paragraph, or the paragraph base level when it is the paragraph's first
code point; the L1 resets of the same pass never undo this, because a BN-like
original class is not in TRAILING_TYPES. -/
theorem C3_amended (env : BidiEnv) (cps : List Nat) (ct : NMap)
    (paraStartCp paraEndCp paraLevel : Nat) (lv0 : NMap) (cpIdx : Nat)
    (ha : paraStartCp ≤ cpIdx) (hb : cpIdx ≤ paraEndCp)
    (hclass : ct.get cpIdx ∈ bidiClassList)
    (hbn : ct.get cpIdx &&& BN_LIKE_TYPES ≠ 0)
    (horig : env.getBidiCharType (cps.getD cpIdx 0) = ct.get cpIdx) :
    (implicitPass env cps ct paraStartCp paraEndCp paraLevel lv0).get cpIdx =
      if cpIdx = paraStartCp then paraLevel
      else (implicitPass env cps ct paraStartCp paraEndCp paraLevel
        lv0).get (cpIdx - 1) := by
  unfold implicitPass
  rw [paraRange_split paraStartCp paraEndCp cpIdx ha hb, List.foldl_append,
    List.foldl_cons]
  exact implicit_bn_fold env cps ct paraStartCp paraEndCp paraLevel cpIdx ha
    hclass hbn horig (paraRange (cpIdx + 1) paraEndCp)
    (implicitStep env cps ct paraStartCp paraEndCp paraLevel
      (List.foldl (implicitStep env cps ct paraStartCp paraEndCp paraLevel)
        lv0 (List.range' paraStartCp (cpIdx - paraStartCp))) cpIdx)
    (fun y hy => by rw [mem_paraRange] at hy; omega)
    (implicitStep_bn_estab env cps ct paraStartCp paraEndCp paraLevel _ cpIdx
      ha hclass hbn horig)

/-- Witness for C3 amended: the letter A followed by a soft hyphen (class BN,
still BN-like at the implicit phase); the soft hyphen gets the level of the
preceding code point. -/
theorem C3_amended_witness :
    (implicitPass demoEnv [0x41, 0xAD] (charTypes0 demoEnv [0x41, 0xAD])
        0 1 0 { base := fun _ => 0 }).get 1 =
      if 1 = 0 then 0
      else (implicitPass demoEnv [0x41, 0xAD] (charTypes0 demoEnv [0x41, 0xAD])
        0 1 0 { base := fun _ => 0 }).get 0 :=
  C3_amended demoEnv [0x41, 0xAD] (charTypes0 demoEnv [0x41, 0xAD])
    0 1 0 { base := fun _ => 0 } 1
    (by decide) (by decide) (by decide) (by decide) (by rfl)

/-- C2 amended: for every input string and base direction on which
getEmbeddingLevels returns, the levels array has exactly one entry per UTF-16
code unit of the input, and every entry lies in [0, 126]: the explicit pass
never assigns a level above 125 (the stack is depth-capped), the weak and
neutral passes never touch levels, and the implicit pass adds at most 1 to an
odd level and at most 2 to an even one, so 126 (which the input of the
counterexample attains) is the exact upper bound. -/
theorem C2_amended (env : BidiEnv) (cps : List Nat) (dir : BaseDirection)
    (r : EmbedResult) (hr : getEmbeddingLevels? env cps dir = some r) :
    r.levels.length = strLength cps ∧ ∀ v ∈ r.levels, v ≤ 126 := by
  unfold getEmbeddingLevels? at hr
  cases hg : getEmbeddingLevelsFull? env cps dir with
  | none => rw [hg] at hr; simp at hr
  | some g =>
    rw [hg] at hr
    simp only [Option.map_some'] at hr
    injection hr with hr'
    subst hr'
    constructor
    · simp
    · intro v hv
      simp only [List.mem_map] at hv
      obtain ⟨c, -, rfl⟩ := hv
      rw [finalizeFn_eq]
      exact finFold_bound cps g.embedLevels (full_lv_bound env cps dir g hg)
        (List.range cps.length) _ (fun c' => by simp [NMap.get]) c

/-- Witness for C2 amended on the three-code-point counterexample input of
C3: three code units with levels 1, 2, 2, all within [0, 126]. -/
theorem C2_amended_witness :
    ([1, 2, 2] : List Nat).length = strLength cpsC3 ∧
    ∀ v ∈ ([1, 2, 2] : List Nat), v ≤ 126 :=
  C2_amended demoEnv cpsC3 BaseDirection.ltr
    { levels := [1, 2, 2], paragraphs := [{ start := 0, paraEnd := 2, level := 0 }] }
    (by rfl)

end Bidi
